import Mathlib

/-!
Verification of the save-migration core of the Stardew Valley Cross-Save Tool.

The filesystem is modelled as a rooted tree of nodes (`Node`): regular files
carry byte lists, directories carry association lists of named children, and
links (POSIX symlinks / NTFS junctions, which the tool treats uniformly)
carry an absolute target path.  Paths are lists of component names.  The
model makes two documented simplifications relative to a real POSIX tree:
intermediate path components are traversed only through real directories
(links appear as leaf entries, which is the only way the workflows of this
program ever create them), and link chains of length greater than one
resolve to nothing.

Python exceptions are modelled by `Except String` / an `Option String` error
component; `str(e)` is the carried message.  Environment-induced failures
(permissions, disk full) are modelled by an oracle `Env` consumed one cell
per facade/strategy call: `some msg` forces that call to raise `msg`.
-/

namespace CrossSave

/-- A filesystem object: regular file with contents, directory with an
association list of named children, or a link storing its target path. -/
inductive Node where
  | file (data : List Nat)
  | dir (entries : List (String × Node))
  | link (target : List String)
deriving Repr

/-- An absolute filesystem path, as its list of components. -/
abbrev Fpath := List String

/-- Look up a name in the entry list of a directory. -/
def getEntry (es : List (String × Node)) (a : String) : Option Node :=
  match es with
  | [] => none
  | e :: rest => if e.1 = a then some e.2 else getEntry rest a

/-- Insert or replace the entry named `a`. -/
def putEntry (es : List (String × Node)) (a : String) (n : Node) :
    List (String × Node) :=
  match es with
  | [] => [(a, n)]
  | e :: rest => if e.1 = a then (a, n) :: rest else e :: putEntry rest a n

/-- Delete the entry named `a` (all occurrences). -/
def delEntry (es : List (String × Node)) (a : String) : List (String × Node) :=
  match es with
  | [] => []
  | e :: rest => if e.1 = a then delEntry rest a else e :: delEntry rest a

/-- Structural path lookup from the root; intermediate components must be
real directories (links are not traversed mid-path in this model). -/
def lookup : Node → Fpath → Option Node
  | n, [] => some n
  | Node.dir es, a :: p =>
    match getEntry es a with
    | some c => lookup c p
    | none => none
  | _, _ :: _ => none

/-- The entry list of a directory node (empty for other nodes). -/
def entriesOf : Node → List (String × Node)
  | Node.dir es => es
  | _ => []

/-- Write `some n` (insert/overwrite) or `none` (delete) at a path, creating
intermediate directories as needed (`mkdir -p` semantics). -/
def setPath : Node → Fpath → Option Node → Node
  | fs, [], v => v.getD fs
  | fs, [a], none => Node.dir (delEntry (entriesOf fs) a)
  | fs, [a], some n => Node.dir (putEntry (entriesOf fs) a n)
  | fs, a :: b :: p, v =>
    Node.dir (putEntry (entriesOf fs) a
      (setPath ((getEntry (entriesOf fs) a).getD (Node.dir [])) (b :: p) v))

/-- Resolve one step of link indirection against the root tree; a link whose
target is missing (or itself a link) resolves to nothing. -/
def resolveNode (root : Node) : Node → Option Node
  | Node.link t =>
    match lookup root t with
    | some (Node.link _) => none
    | some n => some n
    | none => none
  | n => some n

/-- The object a path ultimately denotes after following a leaf link, as
`os.stat` would see it. -/
def statAt (root : Node) (p : Fpath) : Option Node :=
  (lookup root p).bind (resolveNode root)

/-- Model of `Path.exists()`: follows links, so a broken link does not exist. -/
def existsAt (root : Node) (p : Fpath) : Bool :=
  (statAt root p).isSome

/-- Model of `Path.is_dir()`: follows links. -/
def isDirAt (root : Node) (p : Fpath) : Bool :=
  match statAt root p with
  | some (Node.dir _) => true
  | _ => false

/-- Model of `Path.is_symlink()` (and of junction detection): looks at
the entry itself, no following. -/
def isLinkAt (root : Node) (p : Fpath) : Bool :=
  match lookup root p with
  | some (Node.link _) => true
  | _ => false

/-- Whether `p` is an initial segment of `q` (so the object at `p` contains, or is,
the object at `q`). -/
def initseg : Fpath → Fpath → Bool
  | [], _ => true
  | _ :: _, [] => false
  | a :: p, b :: q => if a = b then initseg p q else false

/-- Two paths denote disjoint filesystem locations: neither is an initial
segment of the other. -/
def Disj (p q : Fpath) : Bool :=
  !initseg p q && !initseg q p

mutual

/-- A tree containing no link node anywhere (the shape of a real save
payload of a real save directory; `shutil` deep copies coincide with structural copies
exactly on such trees). -/
def linkFree : Node → Bool
  | Node.file _ => true
  | Node.link _ => false
  | Node.dir es => linkFreeEntries es

/-- The `linkFree` check on a directory entry list. -/
def linkFreeEntries : List (String × Node) → Bool
  | [] => true
  | e :: es => linkFree e.2 && linkFreeEntries es

end

/-! ### Python / `shutil` primitives -/

/-- Message of `FileNotFoundError`. -/
def fileNotFoundMsg : String := "FileNotFoundError: No such file or directory"

/-- Message of `IsADirectoryError`. -/
def isADirectoryMsg : String := "IsADirectoryError: Is a directory"

/-- Message of `NotADirectoryError`. -/
def notADirectoryMsg : String := "NotADirectoryError: Not a directory"

/-- Message of `FileExistsError`. -/
def fileExistsMsg : String := "FileExistsError: File exists"

/-- Message `shutil.rmtree` raises when handed a symlink. -/
def rmtreeLinkMsg : String := "Cannot call rmtree on a symbolic link"

/-- Model of `Path.unlink()`: removes the entry itself (file or link); raises on a
directory or a missing entry. -/
def unlink (fs : Node) (p : Fpath) : Except String Node :=
  match lookup fs p with
  | none => .error fileNotFoundMsg
  | some (Node.dir _) => .error isADirectoryMsg
  | some _ => .ok (setPath fs p none)

/-- Model of `shutil.rmtree(p)`: removes a real directory recursively; refuses
symlinks; raises on files and missing paths. -/
def rmtree (fs : Node) (p : Fpath) : Except String Node :=
  match lookup fs p with
  | none => .error fileNotFoundMsg
  | some (Node.link _) => .error rmtreeLinkMsg
  | some (Node.file _) => .error notADirectoryMsg
  | some (Node.dir _) => .ok (setPath fs p none)

/-- Model of `shutil.copytree(src, dst)`: deep-copies the directory `src` resolves to
into a fresh `dst`; raises if `src` is not a directory or `dst` already has
an entry.  The copy is structural, which matches `copytree` exactly on
link-free source trees. -/
def copytree (fs : Node) (src dst : Fpath) : Except String Node :=
  match statAt fs src with
  | some (Node.dir es) =>
    if (lookup fs dst).isSome then .error fileExistsMsg
    else .ok (setPath fs dst (some (Node.dir es)))
  | some _ => .error notADirectoryMsg
  | none => .error fileNotFoundMsg

/-- Model of `shutil.copy2(s, d)`: copies the bytes (and metadata) of a regular file to
`d`; raises if `s` is a directory or missing, or if `d` resolves to a
directory. -/
def copy2 (fs : Node) (s d : Fpath) : Except String Node :=
  match statAt fs s with
  | some (Node.file data) =>
    match statAt fs d with
    | some (Node.dir _) => .error isADirectoryMsg
    | _ => .ok (setPath fs d (some (Node.file data)))
  | some _ => .error isADirectoryMsg
  | none => .error fileNotFoundMsg

/-- Model of `FileOperations.ensure_directory` / `Path.mkdir(parents=True,
exist_ok=True)`: a no-op when the path already resolves to a directory, an
error when an entry occupies the path without resolving to a directory
(regular file or broken link), directory creation otherwise. -/
def ensureDirectory (fs : Node) (p : Fpath) : Except String Node :=
  match statAt fs p with
  | some (Node.dir _) => .ok fs
  | some _ => .error fileExistsMsg
  | none =>
    if (lookup fs p).isSome then .error fileExistsMsg
    else .ok (setPath fs p (some (Node.dir [])))

/-- Model of `FileOperations.remove_path`, line for line:
`if path.is_dir(): shutil.rmtree(path) else: path.unlink()`. -/
def removePath (fs : Node) (p : Fpath) : Except String Node :=
  if isDirAt fs p then rmtree fs p else unlink fs p

/-- Model of `SymlinkStrategy.is_link`: `path.is_symlink()` (exception-safe). -/
def symIsLink (fs : Node) (p : Fpath) : Bool :=
  isLinkAt fs p

/-- Model of `SymlinkStrategy.create_link`: `os.symlink(target, link_path,
target_is_directory=True)`; raises `FileExistsError` when the link path is
occupied. -/
def symCreateLink (fs : Node) (p target : Fpath) : Except String Node :=
  if (lookup fs p).isSome then .error fileExistsMsg
  else .ok (setPath fs p (some (Node.link target)))

/-- Model of `SymlinkStrategy.remove_link`:
`if path.exists() and self.is_link(path): path.unlink()`. -/
def symRemoveLink (fs : Node) (p : Fpath) : Except String Node :=
  if existsAt fs p && symIsLink fs p then unlink fs p else .ok fs

/-- Model of `JunctionStrategy.is_link`: returns `False` when the path does not
exist, else asks `fsutil reparsepoint query`, which succeeds exactly on
reparse points — modelled as the entry being a link node. -/
def juncIsLink (fs : Node) (p : Fpath) : Bool :=
  if !existsAt fs p then false else isLinkAt fs p

/-- Model of `JunctionStrategy.remove_link`:
`if path.exists() and self.is_link(path): path.unlink()`. -/
def juncRemoveLink (fs : Node) (p : Fpath) : Except String Node :=
  if existsAt fs p && juncIsLink fs p then unlink fs p else .ok fs

/-! ### `FileOperations.copy_contents` and `backup_folder`

`copy_contents` can fail midway through its loop, so it returns the partial
state alongside the error (`Option String × Node`): exactly what the real
loop leaves on disk when an item raises. -/

/-- One iteration of the `copy_contents` loop for the child named `name`:
mirrors the `s.is_dir()` branch (delete-then-copytree) and the file branch
(delete-then-copy2). -/
def copyItem (fs : Node) (src dst : Fpath) (name : String) (ow : Bool) :
    Option String × Node :=
  let s := src ++ [name]
  let d := dst ++ [name]
  if isDirAt fs s then
    match (if existsAt fs d && ow then rmtree fs d else .ok fs) with
    | .error e => (some e, fs)
    | .ok fs2 =>
      match copytree fs2 s d with
      | .error e => (some e, fs2)
      | .ok fs3 => (none, fs3)
  else
    match (if existsAt fs d && ow then unlink fs d else .ok fs) with
    | .error e => (some e, fs)
    | .ok fs2 =>
      match copy2 fs2 s d with
      | .error e => (some e, fs2)
      | .ok fs3 => (none, fs3)

/-- The `for item in src.iterdir()` loop over the listed child names. -/
def copyEntries (fs : Node) (src dst : Fpath) (names : List String)
    (ow : Bool) : Option String × Node :=
  match names with
  | [] => (none, fs)
  | n :: rest =>
    match copyItem fs src dst n ow with
    | (some e, fs') => (some e, fs')
    | (none, fs') => copyEntries fs' src dst rest ow

/-- Model of `FileOperations.copy_contents(src, dst, overwrite)`: ensures `dst`, then
iterates over the children of `src`. -/
def copyContents (fs : Node) (src dst : Fpath) (ow : Bool) :
    Option String × Node :=
  match ensureDirectory fs dst with
  | .error e => (some e, fs)
  | .ok fs1 =>
    match statAt fs1 src with
    | some (Node.dir es) => copyEntries fs1 src dst (es.map (fun e => e.1)) ow
    | some _ => (some notADirectoryMsg, fs1)
    | none => (some fileNotFoundMsg, fs1)

/-- A wall-clock timestamp, the argument of `time.strftime`. -/
structure Ts where
  year : Nat
  month : Nat
  day : Nat
  hour : Nat
  minute : Nat
  second : Nat
deriving Repr, DecidableEq

/-- Zero-pad to two digits, as `strftime` does for in-range fields. -/
def pad2 (n : Nat) : String :=
  if n < 10 then "0" ++ toString n else toString n

/-- Zero-pad to four digits. -/
def pad4 (n : Nat) : String :=
  if n < 10 then "000" ++ toString n
  else if n < 100 then "00" ++ toString n
  else if n < 1000 then "0" ++ toString n
  else toString n

/-- Output of `time.strftime("%Y%m%d_%H%M%S")`. -/
def fmtTsUnderscore (t : Ts) : String :=
  pad4 t.year ++ pad2 t.month ++ pad2 t.day ++ "_" ++
    pad2 t.hour ++ pad2 t.minute ++ pad2 t.second

/-- Output of `time.strftime("%Y%m%d-%H%M%S")` — the format the spec text quotes. -/
def fmtTsDash (t : Ts) : String :=
  pad4 t.year ++ pad2 t.month ++ pad2 t.day ++ "-" ++
    pad2 t.hour ++ pad2 t.minute ++ pad2 t.second

/-- The backup directory name `FileOperations.backup_folder` builds:
`f"backup_{timestamp}"`. -/
def backupDirName (t : Ts) : String :=
  "backup_" ++ fmtTsUnderscore t

/-- Model of `Config.BACKUP_ROOT = Path.home() / "StardewValleyCrossSaves_Backups"`. -/
def BACKUP_ROOT (home : Fpath) : Fpath :=
  home ++ ["StardewValleyCrossSaves_Backups"]

/-- Model of `FileOperations.backup_folder(src, backup_root)`: ensure the root,
stamp a name, `copytree` into it, return the new path. -/
def backupFolder (fs : Node) (src broot : Fpath) (t : Ts) :
    Except String (Node × Fpath) :=
  match ensureDirectory fs broot with
  | .error e => .error e
  | .ok fs1 =>
    let bp := broot ++ [backupDirName t]
    match copytree fs1 src bp with
    | .error e => .error e
    | .ok fs2 => .ok (fs2, bp)

/-! ### Strategies as injected capability records, and the commands -/

/-- Model of `LinkStrategy`: the capability record the commands receive. -/
structure Strategy where
  is_link : Node → Fpath → Bool
  create_link : Node → Fpath → Fpath → Except String Node
  remove_link : Node → Fpath → Except String Node

/-- Model of `JunctionStrategy.create_link`: `mklink /J` — fails when the link path
is occupied, else installs a junction; junctions and symlinks are the same
node kind in this model. -/
def juncCreateLink (fs : Node) (p target : Fpath) : Except String Node :=
  if (lookup fs p).isSome then .error fileExistsMsg
  else .ok (setPath fs p (some (Node.link target)))

/-- The POSIX variant. -/
def symlinkStrategy : Strategy :=
  { is_link := symIsLink, create_link := symCreateLink,
    remove_link := symRemoveLink }

/-- The Windows variant. -/
def junctionStrategy : Strategy :=
  { is_link := juncIsLink, create_link := juncCreateLink,
    remove_link := juncRemoveLink }

/-- The `OperationResult` value object of `commands.py`. -/
structure OperationResult where
  success : Bool
  message : String
  backup_path : Option Fpath := none
deriving Repr

/-- An oracle of environment-induced failures: one cell per facade/strategy
call, `some msg` forcing that call to raise `msg` before acting. -/
abbrev Env := List (Option String)

/-- Run one fallible call under the oracle. -/
def step {α : Type} (env : Env) (act : Except String α) :
    Except String α × Env :=
  match env with
  | [] => (act, [])
  | none :: r => (act, r)
  | some e :: r => (.error e, r)

/-- Run the `copy_contents` call (which carries its partial state) under the
oracle; a forced failure raises before any item is copied. -/
def stepCopy (env : Env) (fs : Node) (act : Option String × Node) :
    (Option String × Node) × Env :=
  match env with
  | [] => (act, [])
  | none :: r => (act, r)
  | some e :: r => ((some e, fs), r)

/-- The `MigrateCommand` success message. -/
def migrateSuccessMsg : String := "Saves migrated to cloud successfully!"

/-- The `LinkCommand` success message. -/
def linkSuccessMsg : String := "Link created successfully!"

/-- The `LinkCommand` already-linked message. -/
def alreadyLinkedMsg : String :=
  "The game Saves folder appears to already be a link/junction. " ++
    "Use \x27Restore Backup\x27 first."

/-- The `RestoreCommand` missing-backup message. -/
def noBackupMsg : String :=
  "No backup available. Backup path not set or doesn\x27t exist."

/-- The `RestoreCommand` success message. -/
def restoreSuccessMsg : String := "Backup restored successfully!"

/-- The try-block of `MigrateCommand.execute`: ensure the cloud directory,
copy the save contents over.  Returns the outcome, the final filesystem, and
the trace of filesystem states after each call (partial states included). -/
def migrateBody (env : Env) (fs : Node) (game cloud : Fpath) :
    Except String Unit × Node × List Node :=
  match step env (ensureDirectory fs cloud) with
  | (.error e, _) => (.error e, fs, [])
  | (.ok fs1, env1) =>
    match stepCopy env1 fs1 (copyContents fs1 game cloud true) with
    | ((some e, fsP), _) => (.error e, fsP, [fs1, fsP])
    | ((none, fs2), _) => (.ok (), fs2, [fs1, fs2])

/-- Model of `MigrateCommand.execute`: the try-block wrapped by
`except Exception as e: return OperationResult(success=False, message=str(e))`. -/
def migrateExecute (env : Env) (fs : Node) (game cloud : Fpath) :
    OperationResult × Node × List Node :=
  match migrateBody env fs game cloud with
  | (.ok _, fs', tr) =>
    ({ success := true, message := migrateSuccessMsg }, fs', tr)
  | (.error e, fs', tr) => ({ success := false, message := e }, fs', tr)

/-- Distinguishes the two non-raising returns of `LinkCommand.execute`. -/
inductive LinkOutcome where
  | alreadyLinked
  | linked (bp : Fpath)

/-- The try-block of `LinkCommand.execute`: already-linked guard, ensure
cloud, copy to cloud, backup, remove original, create link. -/
def linkBody (st : Strategy) (env : Env) (fs : Node) (game cloud broot : Fpath)
    (t : Ts) : Except String LinkOutcome × Node × List Node :=
  if st.is_link fs game then (.ok .alreadyLinked, fs, [])
  else
    match step env (ensureDirectory fs cloud) with
    | (.error e, _) => (.error e, fs, [])
    | (.ok fs1, env1) =>
      match stepCopy env1 fs1 (copyContents fs1 game cloud true) with
      | ((some e, fsP), _) => (.error e, fsP, [fs1, fsP])
      | ((none, fs2), env2) =>
        match step env2 (backupFolder fs2 game broot t) with
        | (.error e, _) => (.error e, fs2, [fs1, fs2])
        | (.ok (fs3, bp), env3) =>
          match step env3 (removePath fs3 game) with
          | (.error e, _) => (.error e, fs3, [fs1, fs2, fs3])
          | (.ok fs4, env4) =>
            match step env4 (st.create_link fs4 game cloud) with
            | (.error e, _) => (.error e, fs4, [fs1, fs2, fs3, fs4])
            | (.ok fs5, _) =>
              (.ok (.linked bp), fs5, [fs1, fs2, fs3, fs4, fs5])

/-- Model of `LinkCommand.execute`: the try-block wrapped by the `except` clause;
note the failure result never carries `backup_path`. -/
def linkExecute (st : Strategy) (env : Env) (fs : Node)
    (game cloud broot : Fpath) (t : Ts) :
    OperationResult × Node × List Node :=
  match linkBody st env fs game cloud broot t with
  | (.ok (.linked bp), fs', tr) =>
    ({ success := true, message := linkSuccessMsg, backup_path := some bp },
      fs', tr)
  | (.ok .alreadyLinked, fs', tr) =>
    ({ success := false, message := alreadyLinkedMsg }, fs', tr)
  | (.error e, fs', tr) => ({ success := false, message := e }, fs', tr)

/-- Distinguishes the two non-raising returns of `RestoreCommand.execute`. -/
inductive RestoreOutcome where
  | noBackup
  | restored

/-- The try-block of `RestoreCommand.execute`: validate the backup handle,
remove the current occupant via the strategy when it exists, copy the backup
back. -/
def restoreBody (st : Strategy) (env : Env) (fs : Node) (game : Fpath)
    (bp : Option Fpath) : Except String RestoreOutcome × Node × List Node :=
  match bp with
  | none => (.ok .noBackup, fs, [])
  | some b =>
    if !existsAt fs b then (.ok .noBackup, fs, [])
    else
      match step env
          (if existsAt fs game then st.remove_link fs game else .ok fs) with
      | (.error e, _) => (.error e, fs, [])
      | (.ok fs1, env1) =>
        match step env1 (copytree fs1 b game) with
        | (.error e, _) => (.error e, fs1, [fs1])
        | (.ok fs2, _) => (.ok .restored, fs2, [fs1, fs2])

/-- Model of `RestoreCommand.execute`: the try-block wrapped by the `except` clause. -/
def restoreExecute (st : Strategy) (env : Env) (fs : Node) (game : Fpath)
    (bp : Option Fpath) : OperationResult × Node × List Node :=
  match restoreBody st env fs game bp with
  | (.ok .restored, fs', tr) =>
    ({ success := true, message := restoreSuccessMsg }, fs', tr)
  | (.ok .noBackup, fs', tr) =>
    ({ success := false, message := noBackupMsg }, fs', tr)
  | (.error e, fs', tr) => ({ success := false, message := e }, fs', tr)

/-! ### Concrete fixtures used to instantiate the theorems -/

/-- A small link-free save payload: `A.txt` and `B/C.txt`. -/
def Ew : List (String × Node) :=
  [("A", Node.file [1]), ("B", Node.dir [("C", Node.file [2])])]

/-- A filesystem with a real save directory and a home directory. -/
def fsW : Node := Node.dir [("save", Node.dir Ew), ("home", Node.dir [])]

/-- A fixed timestamp. -/
def tsW : Ts := ⟨2024, 1, 2, 3, 4, 5⟩

/-- The save path of the fixture. -/
def gameW : Fpath := ["save"]

/-- The cloud target of the fixture. -/
def cloudW : Fpath := ["cloud", "Saves"]

/-- The backup root of the fixture. -/
def brootW : Fpath := ["home", "bk"]

/-- A filesystem whose save path is already a link to the cloud target. -/
def fsLinkedW : Node :=
  Node.dir [("save", Node.link ["cloud", "Saves"]),
    ("cloud", Node.dir [("Saves", Node.dir Ew)]), ("home", Node.dir [])]

/-- A filesystem with a broken link at the save path (target missing). -/
def fsBrokenW : Node := Node.dir [("save", Node.link ["gone"])]

/-- A filesystem holding a backup and a real directory at the save path:
the C3 counterexample input. -/
def fsDirOccW : Node :=
  Node.dir [("save", Node.dir Ew),
    ("home", Node.dir [("bk", Node.dir [("backup_20240102_030405",
      Node.dir Ew)])])]

/-- The backup path inside `fsDirOccW`. -/
def bpW : Fpath := ["home", "bk", "backup_20240102_030405"]

/-- A filesystem with a link at `s` whose target `c` is a real directory. -/
def fsLinkDirW : Node :=
  Node.dir [("s", Node.link ["c"]), ("c", Node.dir [])]

/-! ### Entry-list lemmas -/

theorem getEntry_putEntry_self (es : List (String × Node)) (a : String)
    (n : Node) : getEntry (putEntry es a n) a = some n := by
  induction es with
  | nil => simp [putEntry, getEntry]
  | cons e rest ih =>
    by_cases h : e.1 = a
    · simp [putEntry, h, getEntry]
    · simp [putEntry, h, getEntry, ih]

theorem getEntry_putEntry_ne (es : List (String × Node)) (a b : String)
    (n : Node) (hab : a ≠ b) : getEntry (putEntry es a n) b = getEntry es b := by
  induction es with
  | nil => simp [putEntry, getEntry, hab]
  | cons e rest ih =>
    by_cases h : e.1 = a
    · simp [putEntry, h, getEntry, hab]
    · simp only [putEntry, h, if_false]
      by_cases h2 : e.1 = b
      · simp [getEntry, h2]
      · simp [getEntry, h2, ih]

theorem getEntry_delEntry_self (es : List (String × Node)) (a : String) :
    getEntry (delEntry es a) a = none := by
  induction es with
  | nil => simp [delEntry, getEntry]
  | cons e rest ih =>
    by_cases h : e.1 = a
    · simp [delEntry, h, ih]
    · simp [delEntry, h, getEntry, ih]

theorem getEntry_delEntry_ne (es : List (String × Node)) (a b : String)
    (hab : a ≠ b) : getEntry (delEntry es a) b = getEntry es b := by
  induction es with
  | nil => simp [delEntry]
  | cons e rest ih =>
    by_cases h : e.1 = a
    · simp [delEntry, h, getEntry, hab, Ne.symm hab, ih]
    · by_cases h2 : e.1 = b
      · simp [delEntry, h, getEntry, h2, Ne.symm hab]
      · simp [delEntry, h, getEntry, h2, ih]

/-- Keys really present in a nodup entry list are found by `getEntry`. -/
theorem getEntry_of_mem (es : List (String × Node)) (a : String) (n : Node)
    (hnd : (es.map Prod.fst).Nodup) (h : (a, n) ∈ es) :
    getEntry es a = some n := by
  induction es with
  | nil => cases h
  | cons e rest ih =>
    simp only [List.map_cons, List.nodup_cons] at hnd
    cases h with
    | head => simp [getEntry]
    | tail _ hmem =>
      have hne : e.1 ≠ a := by
        intro hc
        exact hnd.1 (by rw [hc]; exact List.mem_map_of_mem Prod.fst hmem)
      simp [getEntry, hne, ih hnd.2 hmem]

/-- A found entry of a link-free entry list is link-free. -/
theorem linkFree_getEntry (es : List (String × Node)) (a : String) (n : Node)
    (hlf : linkFreeEntries es = true) (h : getEntry es a = some n) :
    linkFree n = true := by
  induction es with
  | nil => simp [getEntry] at h
  | cons e rest ih =>
    simp only [linkFreeEntries, Bool.and_eq_true] at hlf
    by_cases he : e.1 = a
    · simp [getEntry, he] at h
      exact h ▸ hlf.1
    · simp only [getEntry, he, if_false] at h
      exact ih hlf.2 h

/-! ### Path lemmas -/

theorem lookup_setPath_append (p : Fpath) (fs n : Node) (r : Fpath) :
    lookup (setPath fs p (some n)) (p ++ r) = lookup n r := by
  induction p generalizing fs with
  | nil => simp [setPath]
  | cons a p ih =>
    cases p with
    | nil => simp [setPath, lookup, getEntry_putEntry_self]
    | cons b p' =>
      simp only [setPath, lookup, List.cons_append, getEntry_putEntry_self]
      exact ih _

theorem lookup_setPath_some (p : Fpath) (fs n : Node) :
    lookup (setPath fs p (some n)) p = some n := by
  have := lookup_setPath_append p fs n []
  simpa [lookup] using this

theorem lookup_setPath_none (a : String) (p : Fpath) (fs : Node) :
    lookup (setPath fs (a :: p) none) (a :: p) = none := by
  induction p generalizing fs a with
  | nil => simp [setPath, lookup, getEntry_delEntry_self]
  | cons b p' ih =>
    simp [setPath, lookup, getEntry_putEntry_self, ih]

theorem disj_comm (p q : Fpath) : Disj p q = Disj q p := by
  simp [Disj, Bool.and_comm]

theorem disj_ne_nil (p q : Fpath) (h : Disj p q = true) : p ≠ [] ∧ q ≠ [] := by
  constructor
  · rintro rfl; simp [Disj, initseg] at h
  · rintro rfl; simp [Disj, initseg] at h

theorem disj_cons (a : String) (p q : Fpath) :
    Disj (a :: p) (a :: q) = Disj p q := by
  simp [Disj, initseg]

theorem disj_cons_ne (a b : String) (p q : Fpath) (h : a ≠ b) :
    Disj (a :: p) (b :: q) = true := by
  simp [Disj, initseg, h, Ne.symm h]

theorem lookup_setPath_disjoint (p q : Fpath) (fs : Node) (v : Option Node)
    (h : Disj p q = true) : lookup (setPath fs p v) q = lookup fs q := by
  induction p generalizing q fs with
  | nil => exact absurd h (by simp [Disj, initseg])
  | cons a p ih =>
    cases q with
    | nil => exact absurd h (by simp [Disj, initseg])
    | cons b q' =>
      by_cases hab : a = b
      · subst hab
        rw [disj_cons] at h
        have hq' : q' ≠ [] := by
          intro hc
          subst hc
          simp [Disj, initseg] at h
        have hlook : ∀ c : Node, lookup (setPath c p v) q' = lookup c q' :=
          fun c => ih q' c h
        cases p with
        | nil => exact absurd h (by simp [Disj, initseg])
        | cons c p' =>
          cases fs with
          | dir es =>
            cases hget : getEntry es a with
            | some child =>
              simp [setPath, lookup, entriesOf, getEntry_putEntry_self, hget,
                hlook]
            | none =>
              have : lookup (Node.dir []) q' = none := by
                cases q' with
                | nil => exact absurd rfl hq'
                | cons d q'' => simp [lookup, getEntry]
              simp [setPath, lookup, entriesOf, getEntry_putEntry_self, hget,
                hlook, this]
          | file data =>
            have : lookup (Node.dir []) q' = none := by
              cases q' with
              | nil => exact absurd rfl hq'
              | cons d q'' => simp [lookup, getEntry]
            simp [setPath, lookup, entriesOf, getEntry, getEntry_putEntry_self,
              hlook, this]
          | link t =>
            have : lookup (Node.dir []) q' = none := by
              cases q' with
              | nil => exact absurd rfl hq'
              | cons d q'' => simp [lookup, getEntry]
            simp [setPath, lookup, entriesOf, getEntry, getEntry_putEntry_self,
              hlook, this]
      · cases p with
        | nil =>
          cases v with
          | none =>
            cases fs with
            | dir es => simp [setPath, lookup, entriesOf,
                getEntry_delEntry_ne es a b hab]
            | file data => simp [setPath, lookup, entriesOf, delEntry, getEntry]
            | link t => simp [setPath, lookup, entriesOf, delEntry, getEntry]
          | some n =>
            cases fs with
            | dir es => simp [setPath, lookup, entriesOf,
                getEntry_putEntry_ne es a b n hab]
            | file data => simp [setPath, lookup, entriesOf, putEntry,
                getEntry, hab, Ne.symm hab]
            | link t => simp [setPath, lookup, entriesOf, putEntry, getEntry,
                hab, Ne.symm hab]
        | cons c p' =>
          cases fs with
          | dir es => simp [setPath, lookup, entriesOf,
              getEntry_putEntry_ne _ a b _ hab]
          | file data => simp [setPath, lookup, entriesOf, putEntry, getEntry,
              hab, Ne.symm hab]
          | link t => simp [setPath, lookup, entriesOf, putEntry, getEntry,
              hab, Ne.symm hab]

theorem disj_append (p q r s : Fpath) (h : Disj p q = true) :
    Disj (p ++ r) (q ++ s) = true := by
  induction p generalizing q with
  | nil => exact absurd h (by simp [Disj, initseg])
  | cons a p ih =>
    cases q with
    | nil => exact absurd h (by simp [Disj, initseg])
    | cons b q' =>
      by_cases hab : a = b
      · subst hab
        rw [disj_cons] at h
        simpa [disj_cons] using ih q' h
      · simpa using disj_cons_ne a b (p ++ r) (q' ++ s) hab

theorem disj_append_left (p q r : Fpath) (h : Disj p q = true) :
    Disj (p ++ r) q = true := by
  have := disj_append p q r [] h
  simpa using this

theorem disj_append_right (p q r : Fpath) (h : Disj p q = true) :
    Disj p (q ++ r) = true := by
  have := disj_append p q [] r h
  simpa using this

theorem disj_children (p : Fpath) (a b : String) (h : a ≠ b) :
    Disj (p ++ [a]) (p ++ [b]) = true := by
  induction p with
  | nil => simpa using disj_cons_ne a b [] [] h
  | cons c p ih => simpa [disj_cons] using ih

/-- Setting a child of a directory updates the entry list of that directory. -/
theorem lookup_setPath_child_dir (p : Fpath) (fs : Node)
    (es : List (String × Node)) (n : String) (m : Node)
    (h : lookup fs p = some (Node.dir es)) :
    lookup (setPath fs (p ++ [n]) (some m)) p =
      some (Node.dir (putEntry es n m)) := by
  induction p generalizing fs with
  | nil =>
    simp only [lookup] at h
    cases h
    simp [setPath, lookup, entriesOf]
  | cons a p ih =>
    cases fs with
    | dir es0 =>
      simp only [lookup] at h
      cases hget : getEntry es0 a with
      | none => rw [hget] at h; cases h
      | some c =>
        rw [hget] at h
        cases p with
        | nil =>
          simp only [lookup] at h
          cases h
          simp [setPath, lookup, entriesOf, hget, getEntry_putEntry_self, ih]
        | cons b p' =>
          have h' : lookup c (b :: p') = some (Node.dir es) := h
          simp only [setPath, lookup, entriesOf, hget, Option.getD_some,
            getEntry_putEntry_self]
          exact ih c h'
    | file data => simp [lookup] at h
    | link t => simp [lookup] at h

/-! ### Characterizations of the `shutil` primitives -/

theorem unlink_ok (fs fs' : Node) (p : Fpath) (h : unlink fs p = .ok fs') :
    fs' = setPath fs p none := by
  unfold unlink at h
  cases hl : lookup fs p with
  | none => rw [hl] at h; cases h
  | some n =>
    rw [hl] at h
    cases n with
    | dir es => cases h
    | file data => cases h; rfl
    | link t => cases h; rfl

theorem rmtree_ok (fs fs' : Node) (p : Fpath) (h : rmtree fs p = .ok fs') :
    fs' = setPath fs p none := by
  unfold rmtree at h
  cases hl : lookup fs p with
  | none => rw [hl] at h; cases h
  | some n =>
    rw [hl] at h
    cases n with
    | dir es => cases h; rfl
    | file data => cases h
    | link t => cases h

theorem removePath_ok (fs fs' : Node) (p : Fpath)
    (h : removePath fs p = .ok fs') : fs' = setPath fs p none := by
  unfold removePath at h
  by_cases hd : isDirAt fs p
  · rw [if_pos hd] at h; exact rmtree_ok fs fs' p h
  · rw [if_neg hd] at h; exact unlink_ok fs fs' p h

theorem copytree_ok (fs fs' : Node) (src dst : Fpath)
    (h : copytree fs src dst = .ok fs') :
    ∃ es, statAt fs src = some (Node.dir es) ∧ lookup fs dst = none ∧
      fs' = setPath fs dst (some (Node.dir es)) := by
  unfold copytree at h
  cases hs : statAt fs src with
  | none => rw [hs] at h; cases h
  | some n =>
    rw [hs] at h
    cases n with
    | dir es =>
      cases hd : lookup fs dst with
      | some m => rw [hd] at h; simp at h
      | none =>
        rw [hd] at h
        simp only [Option.isSome_none, Bool.false_eq_true, if_false] at h
        cases h
        exact ⟨es, rfl, rfl, rfl⟩
    | file data => cases h
    | link t => cases h

theorem copy2_ok (fs fs' : Node) (s d : Fpath)
    (h : copy2 fs s d = .ok fs') :
    ∃ data, statAt fs s = some (Node.file data) ∧
      fs' = setPath fs d (some (Node.file data)) := by
  unfold copy2 at h
  cases hs : statAt fs s with
  | none => rw [hs] at h; cases h
  | some n =>
    rw [hs] at h
    cases n with
    | dir es => cases h
    | link t => cases h
    | file data =>
      cases hd : statAt fs d with
      | none => rw [hd] at h; cases h; exact ⟨data, rfl, rfl⟩
      | some m =>
        rw [hd] at h
        cases m with
        | dir es2 => cases h
        | file d2 => cases h; exact ⟨data, rfl, rfl⟩
        | link t2 => cases h; exact ⟨data, rfl, rfl⟩

theorem ensureDirectory_ok (fs fs' : Node) (p : Fpath)
    (h : ensureDirectory fs p = .ok fs') :
    fs' = fs ∨
      (lookup fs p = none ∧ fs' = setPath fs p (some (Node.dir []))) := by
  unfold ensureDirectory at h
  cases hs : statAt fs p with
  | none =>
    rw [hs] at h
    cases hl : lookup fs p with
    | some n => rw [hl] at h; simp at h
    | none =>
      rw [hl] at h
      simp only [Option.isSome_none, Bool.false_eq_true, if_false] at h
      cases h
      exact Or.inr ⟨rfl, rfl⟩
  | some n =>
    rw [hs] at h
    cases n with
    | dir es => cases h; left; rfl
    | file data => cases h
    | link t => cases h

theorem symCreateLink_ok (fs fs' : Node) (p t : Fpath)
    (h : symCreateLink fs p t = .ok fs') :
    lookup fs p = none ∧ fs' = setPath fs p (some (Node.link t)) := by
  unfold symCreateLink at h
  cases hl : lookup fs p with
  | some n => rw [hl] at h; simp at h
  | none =>
    rw [hl] at h
    simp only [Option.isSome_none, Bool.false_eq_true, if_false] at h
    cases h
    exact ⟨rfl, rfl⟩

theorem juncCreateLink_ok (fs fs' : Node) (p t : Fpath)
    (h : juncCreateLink fs p t = .ok fs') :
    lookup fs p = none ∧ fs' = setPath fs p (some (Node.link t)) := by
  unfold juncCreateLink at h
  cases hl : lookup fs p with
  | some n => rw [hl] at h; simp at h
  | none =>
    rw [hl] at h
    simp only [Option.isSome_none, Bool.false_eq_true, if_false] at h
    cases h
    exact ⟨rfl, rfl⟩

theorem symRemoveLink_ok (fs fs' : Node) (p : Fpath)
    (h : symRemoveLink fs p = .ok fs') :
    fs' = fs ∨ fs' = setPath fs p none := by
  unfold symRemoveLink at h
  by_cases hc : existsAt fs p && symIsLink fs p
  · rw [if_pos hc] at h; exact Or.inr (unlink_ok fs fs' p h)
  · rw [if_neg hc] at h; cases h; exact Or.inl rfl

theorem juncRemoveLink_ok (fs fs' : Node) (p : Fpath)
    (h : juncRemoveLink fs p = .ok fs') :
    fs' = fs ∨ fs' = setPath fs p none := by
  unfold juncRemoveLink at h
  by_cases hc : existsAt fs p && juncIsLink fs p
  · rw [if_pos hc] at h; exact Or.inr (unlink_ok fs fs' p h)
  · rw [if_neg hc] at h; cases h; exact Or.inl rfl

/-! ### Preservation lemmas for the copy loop -/

theorem copyItem_preserves (fs : Node) (src dst : Fpath) (nm : String)
    (ow : Bool) (r : Option String) (fs' : Node) (q : Fpath)
    (h : copyItem fs src dst nm ow = (r, fs'))
    (hq : Disj (dst ++ [nm]) q = true) : lookup fs' q = lookup fs q := by
  unfold copyItem at h
  by_cases hd : isDirAt fs (src ++ [nm])
  · rw [if_pos hd] at h
    cases hdel : (if existsAt fs (dst ++ [nm]) && ow then
        rmtree fs (dst ++ [nm]) else .ok fs) with
    | error e => rw [hdel] at h; cases h; rfl
    | ok fs2 =>
      rw [hdel] at h
      have h2 : fs2 = fs ∨ fs2 = setPath fs (dst ++ [nm]) none := by
        by_cases he : existsAt fs (dst ++ [nm]) && ow
        · rw [if_pos he] at hdel; exact Or.inr (rmtree_ok fs fs2 _ hdel)
        · rw [if_neg he] at hdel; cases hdel; exact Or.inl rfl
      have hpres2 : lookup fs2 q = lookup fs q := by
        rcases h2 with rfl | h2
        · rfl
        · rw [h2]; exact lookup_setPath_disjoint _ _ _ _ hq
      dsimp only at h
      cases hct : copytree fs2 (src ++ [nm]) (dst ++ [nm]) with
      | error e => rw [hct] at h; cases h; exact hpres2
      | ok fs3 =>
        rw [hct] at h
        cases h
        rcases copytree_ok fs2 fs' _ _ hct with ⟨es, _, _, h3⟩
        rw [h3, lookup_setPath_disjoint _ _ _ _ hq]
        exact hpres2
  · rw [if_neg hd] at h
    cases hdel : (if existsAt fs (dst ++ [nm]) && ow then
        unlink fs (dst ++ [nm]) else .ok fs) with
    | error e => rw [hdel] at h; cases h; rfl
    | ok fs2 =>
      rw [hdel] at h
      have h2 : fs2 = fs ∨ fs2 = setPath fs (dst ++ [nm]) none := by
        by_cases he : existsAt fs (dst ++ [nm]) && ow
        · rw [if_pos he] at hdel; exact Or.inr (unlink_ok fs fs2 _ hdel)
        · rw [if_neg he] at hdel; cases hdel; exact Or.inl rfl
      have hpres2 : lookup fs2 q = lookup fs q := by
        rcases h2 with rfl | h2
        · rfl
        · rw [h2]; exact lookup_setPath_disjoint _ _ _ _ hq
      dsimp only at h
      cases hcp : copy2 fs2 (src ++ [nm]) (dst ++ [nm]) with
      | error e => rw [hcp] at h; cases h; exact hpres2
      | ok fs3 =>
        rw [hcp] at h
        cases h
        rcases copy2_ok fs2 fs' _ _ hcp with ⟨data, _, h3⟩
        rw [h3, lookup_setPath_disjoint _ _ _ _ hq]
        exact hpres2

theorem copyEntries_preserves (names : List String) (fs : Node)
    (src dst : Fpath) (ow : Bool) (r : Option String) (fs' : Node) (q : Fpath)
    (h : copyEntries fs src dst names ow = (r, fs'))
    (hq : Disj dst q = true) : lookup fs' q = lookup fs q := by
  induction names generalizing fs with
  | nil => unfold copyEntries at h; cases h; rfl
  | cons nm rest ih =>
    unfold copyEntries at h
    cases hit : copyItem fs src dst nm ow with
    | mk r1 fs1 =>
      have hq1 : Disj (dst ++ [nm]) q = true := disj_append_left dst q [nm] hq
      cases r1 with
      | some e =>
        rw [hit] at h
        cases h
        exact copyItem_preserves fs src dst nm ow _ fs' q hit hq1
      | none =>
        rw [hit] at h
        have := copyItem_preserves fs src dst nm ow none fs1 q hit hq1
        rw [ih fs1 h]
        exact this

theorem copyContents_preserves (fs : Node) (src dst : Fpath) (ow : Bool)
    (r : Option String) (fs' : Node) (q : Fpath)
    (h : copyContents fs src dst ow = (r, fs'))
    (hq : Disj dst q = true) : lookup fs' q = lookup fs q := by
  unfold copyContents at h
  cases hen : ensureDirectory fs dst with
  | error e => rw [hen] at h; cases h; rfl
  | ok fs1 =>
    rw [hen] at h
    dsimp only at h
    have hpres1 : lookup fs1 q = lookup fs q := by
      rcases ensureDirectory_ok fs fs1 dst hen with rfl | ⟨_, h1⟩
      · rfl
      · rw [h1]; exact lookup_setPath_disjoint _ _ _ _ hq
    cases hs : statAt fs1 src with
    | none => rw [hs] at h; cases h; exact hpres1
    | some n =>
      rw [hs] at h
      cases n with
      | dir es =>
        rw [copyEntries_preserves (es.map (fun e => e.1)) fs1 src dst ow
          r fs' q h hq]
        exact hpres1
      | file data => cases h; exact hpres1
      | link t => cases h; exact hpres1

theorem lookup_append (fs : Node) (p q : Fpath) :
    lookup fs (p ++ q) = (lookup fs p).bind (fun n => lookup n q) := by
  induction p generalizing fs with
  | nil => simp [lookup]
  | cons a p ih =>
    cases fs with
    | dir es =>
      cases hget : getEntry es a with
      | some c => simp [lookup, hget, ih c]
      | none => simp [lookup, hget]
    | file data => simp [lookup]
    | link t => simp [lookup]

/-- Behavior of `copy_contents` items after a successful copy of a fresh child:
the child is written verbatim. -/
theorem copyItem_fresh (fs : Node) (src dst : Fpath) (nm : String) (nd : Node)
    (hs : lookup fs (src ++ [nm]) = some nd)
    (hlf : linkFree nd = true)
    (hd : lookup fs (dst ++ [nm]) = none) :
    copyItem fs src dst nm true = (none, setPath fs (dst ++ [nm]) (some nd)) := by
  have hstat : statAt fs (src ++ [nm]) = some nd := by
    unfold statAt
    rw [hs]
    cases nd with
    | file data => rfl
    | dir es => rfl
    | link t => simp [linkFree] at hlf
  have hdstat : statAt fs (dst ++ [nm]) = none := by
    unfold statAt; rw [hd]; rfl
  have hex : existsAt fs (dst ++ [nm]) = false := by
    unfold existsAt; rw [hdstat]; rfl
  cases nd with
  | link t => simp [linkFree] at hlf
  | dir es =>
    have hdir : isDirAt fs (src ++ [nm]) = true := by
      unfold isDirAt; rw [hstat]
    unfold copyItem
    rw [if_pos hdir, hex]
    simp only [Bool.false_and, Bool.false_eq_true, if_false]
    unfold copytree
    rw [hstat, hd]
    rfl
  | file data =>
    have hdir : isDirAt fs (src ++ [nm]) = false := by
      unfold isDirAt; rw [hstat]
    unfold copyItem
    rw [if_neg (by rw [hdir]; exact Bool.false_ne_true), hex]
    simp only [Bool.false_and, Bool.false_eq_true, if_false]
    unfold copy2
    rw [hstat, hdstat]

/-- A successful `copy_contents` item leaves the source child, verbatim, at
the destination child. -/
theorem copyItem_ok (fs fs' : Node) (src dst : Fpath) (nm : String)
    (nd : Node) (h : copyItem fs src dst nm true = (none, fs'))
    (hs : lookup fs (src ++ [nm]) = some nd)
    (hlf : linkFree nd = true)
    (hdisj : Disj (src ++ [nm]) (dst ++ [nm]) = true) :
    lookup fs' (dst ++ [nm]) = some nd := by
  have hstat : statAt fs (src ++ [nm]) = some nd := by
    unfold statAt
    rw [hs]
    cases nd with
    | file data => rfl
    | dir es => rfl
    | link t => simp [linkFree] at hlf
  unfold copyItem at h
  by_cases hd : isDirAt fs (src ++ [nm])
  · -- directory child: delete-then-copytree
    rw [if_pos hd] at h
    cases hdel : (if existsAt fs (dst ++ [nm]) && true then
        rmtree fs (dst ++ [nm]) else .ok fs) with
    | error e => rw [hdel] at h; cases h
    | ok fs2 =>
      rw [hdel] at h
      dsimp only at h
      have h2 : fs2 = fs ∨ fs2 = setPath fs (dst ++ [nm]) none := by
        by_cases he : existsAt fs (dst ++ [nm]) && true
        · rw [if_pos he] at hdel; exact Or.inr (rmtree_ok fs fs2 _ hdel)
        · rw [if_neg he] at hdel; cases hdel; exact Or.inl rfl
      have hs2 : lookup fs2 (src ++ [nm]) = some nd := by
        rcases h2 with rfl | h2
        · exact hs
        · rw [h2, lookup_setPath_disjoint _ _ _ _ (disj_comm _ _ ▸ hdisj)]
          exact hs
      have hstat2 : statAt fs2 (src ++ [nm]) = some nd := by
        unfold statAt
        rw [hs2]
        cases nd with
        | file data => rfl
        | dir es => rfl
        | link t => simp [linkFree] at hlf
      cases hct : copytree fs2 (src ++ [nm]) (dst ++ [nm]) with
      | error e => rw [hct] at h; cases h
      | ok fs3 =>
        rw [hct] at h
        cases h
        rcases copytree_ok fs2 fs' _ _ hct with ⟨es, hst, _, h3⟩
        rw [hstat2] at hst
        cases nd with
        | dir es2 =>
          cases hst
          rw [h3]
          exact lookup_setPath_some _ _ _
        | file data =>
          cases hst
        | link t => simp [linkFree] at hlf
  · -- file child: delete-then-copy2
    rw [if_neg hd] at h
    have hnd : ∃ data, nd = Node.file data := by
      cases nd with
      | file data => exact ⟨data, rfl⟩
      | link t => simp [linkFree] at hlf
      | dir es =>
        exfalso
        apply hd
        unfold isDirAt
        rw [hstat]
    rcases hnd with ⟨data, rfl⟩
    cases hdel : (if existsAt fs (dst ++ [nm]) && true then
        unlink fs (dst ++ [nm]) else .ok fs) with
    | error e => rw [hdel] at h; cases h
    | ok fs2 =>
      rw [hdel] at h
      dsimp only at h
      have h2 : fs2 = fs ∨ fs2 = setPath fs (dst ++ [nm]) none := by
        by_cases he : existsAt fs (dst ++ [nm]) && true
        · rw [if_pos he] at hdel; exact Or.inr (unlink_ok fs fs2 _ hdel)
        · rw [if_neg he] at hdel; cases hdel; exact Or.inl rfl
      have hs2 : lookup fs2 (src ++ [nm]) = some (Node.file data) := by
        rcases h2 with rfl | h2
        · exact hs
        · rw [h2, lookup_setPath_disjoint _ _ _ _ (disj_comm _ _ ▸ hdisj)]
          exact hs
      have hstat2 : statAt fs2 (src ++ [nm]) = some (Node.file data) := by
        unfold statAt; rw [hs2]; rfl
      cases hcp : copy2 fs2 (src ++ [nm]) (dst ++ [nm]) with
      | error e => rw [hcp] at h; cases h
      | ok fs3 =>
        rw [hcp] at h
        cases h
        rcases copy2_ok fs2 fs' _ _ hcp with ⟨data2, hst, h3⟩
        rw [hstat2] at hst
        cases hst
        rw [h3]
        exact lookup_setPath_some _ _ _

/-- The copy loop does not touch destination children it was not asked to
copy. -/
theorem copyEntries_preserves_child (names : List String) (fs : Node)
    (src dst : Fpath) (ow : Bool) (r : Option String) (fs' : Node)
    (nm : String) (h : copyEntries fs src dst names ow = (r, fs'))
    (hnm : nm ∉ names) :
    lookup fs' (dst ++ [nm]) = lookup fs (dst ++ [nm]) := by
  induction names generalizing fs with
  | nil => unfold copyEntries at h; cases h; rfl
  | cons n1 rest ih =>
    have hne : n1 ≠ nm := fun hc => hnm (hc ▸ List.mem_cons_self n1 rest)
    have hdisj : Disj (dst ++ [n1]) (dst ++ [nm]) = true :=
      disj_children dst n1 nm hne
    unfold copyEntries at h
    cases hit : copyItem fs src dst n1 ow with
    | mk r1 fs1 =>
      cases r1 with
      | some e =>
        rw [hit] at h
        cases h
        exact copyItem_preserves fs src dst n1 ow _ fs' _ hit hdisj
      | none =>
        rw [hit] at h
        rw [ih fs1 h (fun hc => hnm (List.mem_cons_of_mem n1 hc))]
        exact copyItem_preserves fs src dst n1 ow none fs1 _ hit hdisj

/-- After a successful copy loop every requested entry of the source
directory sits, verbatim, at the destination. -/
theorem copyEntries_ok_content (names : List String) (fs fs' : Node)
    (src dst : Fpath) (E : List (String × Node))
    (h : copyEntries fs src dst names true = (none, fs'))
    (hsrc : lookup fs src = some (Node.dir E))
    (hdisj : Disj src dst = true)
    (hlf : linkFreeEntries E = true)
    (hnd : names.Nodup) :
    ∀ nm ∈ names, ∀ nd, getEntry E nm = some nd →
      lookup fs' (dst ++ [nm]) = some nd := by
  induction names generalizing fs with
  | nil => intro nm hmem; cases hmem
  | cons n1 rest ih =>
    unfold copyEntries at h
    cases hit : copyItem fs src dst n1 true with
    | mk r1 fs1 =>
      cases r1 with
      | some e => rw [hit] at h; cases h
      | none =>
        rw [hit] at h
        dsimp only at h
        have hsrc1 : lookup fs1 src = some (Node.dir E) := by
          rw [copyItem_preserves fs src dst n1 true none fs1 src hit
            (disj_append_left dst src [n1] (disj_comm _ _ ▸ hdisj))]
          exact hsrc
        intro nm hmem nd hget
        cases hmem with
        | head =>
          have hs : lookup fs (src ++ [n1]) = some nd := by
            rw [lookup_append, hsrc]
            simp [lookup, hget]
          have hv : lookup fs1 (dst ++ [n1]) = some nd :=
            copyItem_ok fs fs1 src dst n1 nd hit hs
              (linkFree_getEntry E n1 nd hlf hget)
              (disj_append src dst [n1] [n1] hdisj)
          rw [copyEntries_preserves_child rest fs1 src dst true none fs' n1 h
            (by simpa using (List.nodup_cons.mp hnd).1)]
          exact hv
        | tail _ hmem' =>
          exact ih fs1 h hsrc1 (List.nodup_cons.mp hnd).2 nm hmem' nd hget

/-- On fresh destination children the copy loop succeeds outright, and the
destination stays a directory. -/
theorem copyEntries_fresh (names : List String) (fs : Node) (src dst : Fpath)
    (E es0 : List (String × Node))
    (hsrc : lookup fs src = some (Node.dir E))
    (hdst : lookup fs dst = some (Node.dir es0))
    (hdisj : Disj src dst = true)
    (hlf : linkFreeEntries E = true)
    (hnd : names.Nodup)
    (hkeys : ∀ nm ∈ names, ∃ nd, getEntry E nm = some nd)
    (hfresh : ∀ nm ∈ names, lookup fs (dst ++ [nm]) = none) :
    ∃ fs' es', copyEntries fs src dst names true = (none, fs') ∧
      lookup fs' dst = some (Node.dir es') := by
  induction names generalizing fs es0 with
  | nil => exact ⟨fs, es0, rfl, hdst⟩
  | cons n1 rest ih =>
    rcases hkeys n1 (List.mem_cons_self n1 rest) with ⟨nd, hget⟩
    have hs : lookup fs (src ++ [n1]) = some nd := by
      rw [lookup_append, hsrc]
      simp [lookup, hget]
    have hlf1 : linkFree nd = true := linkFree_getEntry E n1 nd hlf hget
    have hfit := copyItem_fresh fs src dst n1 nd hs hlf1
      (hfresh n1 (List.mem_cons_self n1 rest))
    set fs1 := setPath fs (dst ++ [n1]) (some nd) with hfs1
    have hsrc1 : lookup fs1 src = some (Node.dir E) := by
      rw [hfs1, lookup_setPath_disjoint _ _ _ _
        (disj_append_left dst src [n1] (disj_comm _ _ ▸ hdisj))]
      exact hsrc
    have hdst1 : lookup fs1 dst = some (Node.dir (putEntry es0 n1 nd)) :=
      lookup_setPath_child_dir dst fs es0 n1 nd hdst
    have hfresh1 : ∀ nm ∈ rest, lookup fs1 (dst ++ [nm]) = none := by
      intro nm hmem
      have hne : n1 ≠ nm := by
        intro hc
        exact (List.nodup_cons.mp hnd).1 (hc ▸ hmem)
      rw [hfs1, lookup_setPath_disjoint _ _ _ _ (disj_children dst n1 nm hne)]
      exact hfresh nm (List.mem_cons_of_mem n1 hmem)
    rcases ih fs1 (putEntry es0 n1 nd) hsrc1 hdst1 (List.nodup_cons.mp hnd).2
      (fun nm hm => hkeys nm (List.mem_cons_of_mem n1 hm)) hfresh1 with
      ⟨fs', es', hrun, hdir⟩
    refine ⟨fs', es', ?_, hdir⟩
    unfold copyEntries
    rw [hfit]
    exact hrun

/-! ### Oracle-step lemmas and workflow characterizations -/

theorem step_ok {α : Type} (env : Env) (act : Except String α)
    (r : Except String α) (env' : Env) (v : α)
    (h : step env act = (r, env')) (hr : r = .ok v) : act = .ok v := by
  unfold step at h
  cases env with
  | nil => cases h; exact hr
  | cons o rest =>
    cases o with
    | none => cases h; exact hr
    | some e => cases h; cases hr

theorem stepCopy_ok (env : Env) (fs : Node) (act : Option String × Node)
    (env' : Env) (fs2 : Node)
    (h : stepCopy env fs act = ((none, fs2), env')) : act = (none, fs2) := by
  unfold stepCopy at h
  cases env with
  | nil => cases h; rfl
  | cons o rest =>
    cases o with
    | none => cases h; rfl
    | some e => cases h

theorem stepCopy_out (env : Env) (fs : Node) (act : Option String × Node)
    (r : Option String × Node) (env' : Env)
    (h : stepCopy env fs act = (r, env')) : r = act ∨ r.2 = fs := by
  unfold stepCopy at h
  cases env with
  | nil => cases h; exact Or.inl rfl
  | cons o rest =>
    cases o with
    | none => cases h; exact Or.inl rfl
    | some e => cases h; exact Or.inr rfl

theorem isLinkAt_of_dir (fs : Node) (p : Fpath) (es : List (String × Node))
    (h : lookup fs p = some (Node.dir es)) : isLinkAt fs p = false := by
  unfold isLinkAt
  rw [h]

theorem statAt_of_dir (fs : Node) (p : Fpath) (es : List (String × Node))
    (h : lookup fs p = some (Node.dir es)) :
    statAt fs p = some (Node.dir es) := by
  unfold statAt
  rw [h]
  rfl

/-- Neither strategy classifies a real directory as a link. -/
theorem strategy_isLink_dir (st : Strategy)
    (hst : st = symlinkStrategy ∨ st = junctionStrategy) (fs : Node)
    (p : Fpath) (es : List (String × Node))
    (h : lookup fs p = some (Node.dir es)) : st.is_link fs p = false := by
  rcases hst with rfl | rfl
  · exact isLinkAt_of_dir fs p es h
  · show juncIsLink fs p = false
    unfold juncIsLink
    rw [isLinkAt_of_dir fs p es h]
    simp

/-- Both strategies' `create_link` install exactly a link node. -/
theorem strategy_createLink_ok (st : Strategy)
    (hst : st = symlinkStrategy ∨ st = junctionStrategy)
    (fs fs' : Node) (p t : Fpath) (h : st.create_link fs p t = .ok fs') :
    lookup fs p = none ∧ fs' = setPath fs p (some (Node.link t)) := by
  rcases hst with rfl | rfl
  · exact symCreateLink_ok fs fs' p t h
  · exact juncCreateLink_ok fs fs' p t h

/-- Both strategies' `remove_link` either do nothing or delete the entry. -/
theorem strategy_removeLink_ok (st : Strategy)
    (hst : st = symlinkStrategy ∨ st = junctionStrategy)
    (fs fs' : Node) (p : Fpath) (h : st.remove_link fs p = .ok fs') :
    fs' = fs ∨ fs' = setPath fs p none := by
  rcases hst with rfl | rfl
  · exact symRemoveLink_ok fs fs' p h
  · exact juncRemoveLink_ok fs fs' p h

/-- Running `backup_folder` on a real source directory: the backup lands at the
stamped path under the root, verbatim, and nothing outside the backup root
subtree changes. -/
theorem backupFolder_ok_dir (fs fs3 : Node) (src broot bp : Fpath) (t : Ts)
    (es : List (String × Node))
    (hsrc : lookup fs src = some (Node.dir es))
    (hds : Disj broot src = true)
    (h : backupFolder fs src broot t = .ok (fs3, bp)) :
    bp = broot ++ [backupDirName t] ∧
      lookup fs3 bp = some (Node.dir es) ∧
      (∀ q, Disj broot q = true → lookup fs3 q = lookup fs q) := by
  unfold backupFolder at h
  cases hen : ensureDirectory fs broot with
  | error e => rw [hen] at h; cases h
  | ok fsB =>
    rw [hen] at h
    dsimp only at h
    have hpresB : ∀ q, Disj broot q = true → lookup fsB q = lookup fs q := by
      intro q hq
      rcases ensureDirectory_ok fs fsB broot hen with rfl | ⟨_, h1⟩
      · rfl
      · rw [h1]; exact lookup_setPath_disjoint _ _ _ _ hq
    have hsrcB : lookup fsB src = some (Node.dir es) := by
      rw [hpresB src hds]; exact hsrc
    cases hct : copytree fsB src (broot ++ [backupDirName t]) with
    | error e => rw [hct] at h; cases h
    | ok fsC =>
      rw [hct] at h
      cases h
      rcases copytree_ok fsB fs3 _ _ hct with ⟨es2, hst2, _, h3⟩
      rw [statAt_of_dir fsB src es hsrcB] at hst2
      cases hst2
      refine ⟨rfl, ?_, ?_⟩
      · rw [h3]; exact lookup_setPath_some _ _ _
      · intro q hq
        rw [h3, lookup_setPath_disjoint _ _ _ _ (disj_append_left _ _ _ hq),
          hpresB q hq]

/-- A successful `copy_contents` run with fixed source listing: every child
of the source directory is afterwards present, verbatim, under the
destination. -/
theorem copyContents_ok_content (fs fs2 : Node) (game cloud : Fpath)
    (E : List (String × Node))
    (h : copyContents fs game cloud true = (none, fs2))
    (hsrc : lookup fs game = some (Node.dir E))
    (hdisj : Disj game cloud = true)
    (hlf : linkFreeEntries E = true)
    (hnd : (E.map Prod.fst).Nodup) :
    ∀ e ∈ E, lookup fs2 (cloud ++ [e.1]) = some e.2 := by
  unfold copyContents at h
  cases hen : ensureDirectory fs cloud with
  | error e => rw [hen] at h; cases h
  | ok fs1 =>
    rw [hen] at h
    dsimp only at h
    have hsrc1 : lookup fs1 game = some (Node.dir E) := by
      rcases ensureDirectory_ok fs fs1 cloud hen with rfl | ⟨_, h1⟩
      · exact hsrc
      · rw [h1, lookup_setPath_disjoint _ _ _ _ (disj_comm _ _ ▸ hdisj)]
        exact hsrc
    rw [statAt_of_dir fs1 game E hsrc1] at h
    intro e hmem
    exact copyEntries_ok_content (E.map (fun e => e.1)) fs1 fs2 game cloud E h
      hsrc1 hdisj hlf hnd e.1 (List.mem_map_of_mem _ hmem) e.2
      (getEntry_of_mem E e.1 e.2 hnd hmem)

/-- The `backup_folder` call never writes outside the backup-root subtree. -/
theorem backupFolder_preserves (fs fs' : Node) (src broot bp : Fpath) (t : Ts)
    (q : Fpath) (h : backupFolder fs src broot t = .ok (fs', bp))
    (hq : Disj broot q = true) : lookup fs' q = lookup fs q := by
  unfold backupFolder at h
  cases hen : ensureDirectory fs broot with
  | error e => rw [hen] at h; cases h
  | ok fsB =>
    rw [hen] at h
    dsimp only at h
    have hpresB : lookup fsB q = lookup fs q := by
      rcases ensureDirectory_ok fs fsB broot hen with rfl | ⟨_, h1⟩
      · rfl
      · rw [h1]; exact lookup_setPath_disjoint _ _ _ _ hq
    cases hct : copytree fsB src (broot ++ [backupDirName t]) with
    | error e => rw [hct] at h; cases h
    | ok fsC =>
      rw [hct] at h
      cases h
      rcases copytree_ok fsB fs' _ _ hct with ⟨es2, _, _, h3⟩
      rw [h3, lookup_setPath_disjoint _ _ _ _ (disj_append_left _ _ _ hq),
        hpresB]

/-- The deterministic success path of the Link pipeline on a fresh cloud
target and fresh backup root: each stage's call succeeds with the stated
result, and the state after the backup stage holds the original directory,
the cloud copy, and the backup simultaneously. -/
theorem link_stages (st : Strategy)
    (hst : st = symlinkStrategy ∨ st = junctionStrategy)
    (fs : Node) (game cloud broot : Fpath) (t : Ts)
    (E : List (String × Node))
    (hd1 : Disj game cloud = true) (hd2 : Disj game broot = true)
    (hd3 : Disj cloud broot = true)
    (hgame : lookup fs game = some (Node.dir E))
    (hlf : linkFreeEntries E = true)
    (hnd : (E.map Prod.fst).Nodup)
    (hcf : lookup fs cloud = none)
    (hbf : lookup fs broot = none) :
    ∃ fs2 fs3 esC,
      ensureDirectory fs cloud = .ok (setPath fs cloud (some (Node.dir []))) ∧
      copyContents (setPath fs cloud (some (Node.dir []))) game cloud true =
        (none, fs2) ∧
      backupFolder fs2 game broot t =
        .ok (fs3, broot ++ [backupDirName t]) ∧
      removePath fs3 game = .ok (setPath fs3 game none) ∧
      st.create_link (setPath fs3 game none) game cloud =
        .ok (setPath (setPath fs3 game none) game (some (Node.link cloud))) ∧
      lookup fs3 game = some (Node.dir E) ∧
      lookup fs3 (broot ++ [backupDirName t]) = some (Node.dir E) ∧
      lookup fs3 cloud = some (Node.dir esC) ∧
      (∀ e ∈ E, lookup fs3 (cloud ++ [e.1]) = some e.2) ∧
      lookup fs2 game = some (Node.dir E) := by
  obtain ⟨hgne, hcne⟩ := disj_ne_nil game cloud hd1
  obtain ⟨-, hbne⟩ := disj_ne_nil game broot hd2
  -- stage 1: ensure the cloud directory
  have hstat0 : statAt fs cloud = none := by unfold statAt; rw [hcf]; rfl
  have hen1 : ensureDirectory fs cloud =
      .ok (setPath fs cloud (some (Node.dir []))) := by
    unfold ensureDirectory
    rw [hstat0, hcf]
    rfl
  set fs1 := setPath fs cloud (some (Node.dir [])) with hfs1
  have hg1 : lookup fs1 game = some (Node.dir E) := by
    rw [hfs1, lookup_setPath_disjoint _ _ _ _ (disj_comm _ _ ▸ hd1)]
    exact hgame
  have hc1 : lookup fs1 cloud = some (Node.dir []) :=
    lookup_setPath_some _ _ _
  have hb1 : lookup fs1 broot = none := by
    rw [hfs1, lookup_setPath_disjoint _ _ _ _ hd3]
    exact hbf
  have hfresh1 : ∀ nm ∈ E.map Prod.fst, lookup fs1 (cloud ++ [nm]) = none := by
    intro nm _
    rw [hfs1, lookup_setPath_append]
    simp [lookup, getEntry]
  -- stage 2: copy the save contents into the cloud target
  obtain ⟨fs2, esC, hcp, hcdir⟩ := copyEntries_fresh (E.map Prod.fst) fs1 game
    cloud E [] hg1 hc1 hd1 hlf hnd
    (fun nm hm => by
      rcases List.mem_map.mp hm with ⟨e, hmem, rfl⟩
      exact ⟨e.2, getEntry_of_mem E e.1 e.2 hnd hmem⟩)
    hfresh1
  have hcc : copyContents fs1 game cloud true = (none, fs2) := by
    unfold copyContents
    have : ensureDirectory fs1 cloud = .ok fs1 := by
      unfold ensureDirectory
      rw [statAt_of_dir fs1 cloud [] hc1]
    rw [this]
    dsimp only
    rw [statAt_of_dir fs1 game E hg1]
    exact hcp
  have hg2 : lookup fs2 game = some (Node.dir E) := by
    rw [copyEntries_preserves _ _ _ _ _ _ _ game hcp (disj_comm _ _ ▸ hd1)]
    exact hg1
  have hb2 : lookup fs2 broot = none := by
    rw [copyEntries_preserves _ _ _ _ _ _ _ broot hcp hd3]
    exact hb1
  have hc2 : lookup fs2 cloud = some (Node.dir esC) := hcdir
  have hcloud2 : ∀ e ∈ E, lookup fs2 (cloud ++ [e.1]) = some e.2 := by
    intro e hmem
    exact copyEntries_ok_content (E.map Prod.fst) fs1 fs2 game cloud E hcp hg1
      hd1 hlf hnd e.1 (List.mem_map_of_mem _ hmem) e.2
      (getEntry_of_mem E e.1 e.2 hnd hmem)
  -- stage 3: the timestamped backup
  have hstatb : statAt fs2 broot = none := by unfold statAt; rw [hb2]; rfl
  have henb : ensureDirectory fs2 broot =
      .ok (setPath fs2 broot (some (Node.dir []))) := by
    unfold ensureDirectory
    rw [hstatb, hb2]
    rfl
  set fsB := setPath fs2 broot (some (Node.dir [])) with hfsB
  have hgB : lookup fsB game = some (Node.dir E) := by
    rw [hfsB, lookup_setPath_disjoint _ _ _ _ (disj_comm _ _ ▸ hd2)]
    exact hg2
  have hbpB : lookup fsB (broot ++ [backupDirName t]) = none := by
    rw [hfsB, lookup_setPath_append]
    simp [lookup, getEntry]
  have hbk : backupFolder fs2 game broot t =
      .ok (setPath fsB (broot ++ [backupDirName t]) (some (Node.dir E)),
        broot ++ [backupDirName t]) := by
    unfold backupFolder
    rw [henb]
    dsimp only
    unfold copytree
    rw [statAt_of_dir fsB game E hgB, hbpB]
    rfl
  set fs3 := setPath fsB (broot ++ [backupDirName t]) (some (Node.dir E))
    with hfs3
  have hg3 : lookup fs3 game = some (Node.dir E) := by
    rw [hfs3, lookup_setPath_disjoint _ _ _ _
      (disj_append_left broot game [backupDirName t] (disj_comm _ _ ▸ hd2))]
    exact hgB
  have hbk3 : lookup fs3 (broot ++ [backupDirName t]) = some (Node.dir E) :=
    lookup_setPath_some _ _ _
  have hc3 : lookup fs3 cloud = some (Node.dir esC) := by
    rw [hfs3, lookup_setPath_disjoint _ _ _ _
      (disj_append_left broot cloud [backupDirName t] (disj_comm _ _ ▸ hd3)),
      hfsB, lookup_setPath_disjoint _ _ _ _ (disj_comm _ _ ▸ hd3)]
    exact hc2
  have hcloud3 : ∀ e ∈ E, lookup fs3 (cloud ++ [e.1]) = some e.2 := by
    intro e hmem
    rw [hfs3, lookup_setPath_disjoint _ _ _ _
      (disj_append broot cloud [backupDirName t] [e.1] (disj_comm _ _ ▸ hd3)),
      hfsB, lookup_setPath_disjoint _ _ _ _
      (disj_append_right broot cloud [e.1] (disj_comm _ _ ▸ hd3))]
    exact hcloud2 e hmem
  -- stage 4: remove the original directory
  have hrm : removePath fs3 game = .ok (setPath fs3 game none) := by
    unfold removePath
    have hdir3 : isDirAt fs3 game = true := by
      unfold isDirAt
      rw [statAt_of_dir fs3 game E hg3]
    rw [if_pos hdir3]
    unfold rmtree
    rw [hg3]
  -- stage 5: create the link
  have hnone4 : lookup (setPath fs3 game none) game = none := by
    cases game with
    | nil => exact absurd rfl hgne
    | cons a p => exact lookup_setPath_none a p fs3
  have hlink : st.create_link (setPath fs3 game none) game cloud =
      .ok (setPath (setPath fs3 game none) game (some (Node.link cloud))) := by
    rcases hst with rfl | rfl
    · show symCreateLink _ _ _ = _
      unfold symCreateLink
      rw [hnone4]
      rfl
    · show juncCreateLink _ _ _ = _
      unfold juncCreateLink
      rw [hnone4]
      rfl
  exact ⟨fs2, fs3, esC, hen1, hcc, hbk, hrm, hlink, hg3, hbk3, hc3, hcloud3,
    hg2⟩

/-- A link entry whose target is a real directory resolves to it. -/
theorem statAt_link_dir (fs : Node) (p tg : Fpath)
    (es : List (String × Node)) (hp : lookup fs p = some (Node.link tg))
    (htg : lookup fs tg = some (Node.dir es)) :
    statAt fs p = some (Node.dir es) := by
  unfold statAt
  rw [hp]
  show resolveNode fs (Node.link tg) = some (Node.dir es)
  simp only [resolveNode]
  rw [htg]

/-- Both strategies remove the entry of a link that `Path.exists()` sees. -/
theorem strategy_removeLink_link (st : Strategy)
    (hst : st = symlinkStrategy ∨ st = junctionStrategy)
    (fs : Node) (p tg : Fpath) (hp : lookup fs p = some (Node.link tg))
    (hex : existsAt fs p = true) :
    st.remove_link fs p = .ok (setPath fs p none) := by
  have hil : isLinkAt fs p = true := by unfold isLinkAt; rw [hp]
  have hul : unlink fs p = .ok (setPath fs p none) := by unfold unlink; rw [hp]
  rcases hst with rfl | rfl
  · show symRemoveLink fs p = _
    unfold symRemoveLink symIsLink
    rw [hex, hil]
    exact hul
  · show juncRemoveLink fs p = _
    unfold juncRemoveLink juncIsLink
    rw [hex, hil]
    exact hul

/-- Neither strategy touches an entry it does not classify as a link. -/
theorem strategy_removeLink_nonlink (st : Strategy)
    (hst : st = symlinkStrategy ∨ st = junctionStrategy)
    (fs : Node) (p : Fpath) (hnl : isLinkAt fs p = false) :
    st.remove_link fs p = .ok fs := by
  rcases hst with rfl | rfl
  · show symRemoveLink fs p = _
    unfold symRemoveLink symIsLink
    rw [hnl]
    simp
  · show juncRemoveLink fs p = _
    unfold juncRemoveLink juncIsLink
    rw [hnl]
    by_cases he : existsAt fs p <;> simp [he]

/-! ### Claim theorems -/

/-- C3 counterexample: with an existing backup directory and a real
directory occupying the save path, `RestoreCommand.execute` fails (the
`remove_link` of the strategy is a no-op on a real directory, so the following
`copytree` raises `FileExistsError`) and the occupant is left in place,
refuting "removes that occupant — whether it is a link or a real directory
— ... returning a successful result". -/
theorem restore_dir_occupant_counterexample :
    (restoreExecute symlinkStrategy [] fsDirOccW gameW (some bpW)).1.success
      = false ∧
    (restoreExecute symlinkStrategy [] fsDirOccW gameW
      (some bpW)).1.message = fileExistsMsg ∧
    lookup (restoreExecute symlinkStrategy [] fsDirOccW gameW
      (some bpW)).2.1 gameW = some (Node.dir Ew) :=
  ⟨rfl, rfl, rfl⟩

/-- C3 amended: given an existing backup directory, Restore removes a
*link* occupant (one the platform check classifies as a link and whose
target exists) and deep-copies the backup back as a real directory,
succeeding; but a *real directory* occupant is not removed: the workflow
returns a failed result and leaves the occupant unchanged. -/
theorem restore_removes_link_not_directory (st : Strategy)
    (hst : st = symlinkStrategy ∨ st = junctionStrategy)
    (fs : Node) (game b tgt : Fpath) (B esT : List (String × Node))
    (hd : Disj game b = true)
    (hbk : lookup fs b = some (Node.dir B)) :
    (lookup fs game = some (Node.link tgt) →
      lookup fs tgt = some (Node.dir esT) →
      (restoreExecute st [] fs game (some b)).1.success = true ∧
      lookup (restoreExecute st [] fs game (some b)).2.1 game =
        some (Node.dir B)) ∧
    (∀ E, lookup fs game = some (Node.dir E) →
      (restoreExecute st [] fs game (some b)).1.success = false ∧
      lookup (restoreExecute st [] fs game (some b)).2.1 game =
        some (Node.dir E)) := by
  obtain ⟨hgne, -⟩ := disj_ne_nil game b hd
  have hexb : existsAt fs b = true := by
    unfold existsAt
    rw [statAt_of_dir fs b B hbk]
    rfl
  constructor
  · intro hg htgt
    have hex : existsAt fs game = true := by
      unfold existsAt
      rw [statAt_link_dir fs game tgt esT hg htgt]
      rfl
    have hrl : st.remove_link fs game = .ok (setPath fs game none) :=
      strategy_removeLink_link st hst fs game tgt hg hex
    have hb1 : lookup (setPath fs game none) b = some (Node.dir B) := by
      rw [lookup_setPath_disjoint _ _ _ _ hd]
      exact hbk
    have hg1 : lookup (setPath fs game none) game = none := by
      cases game with
      | nil => exact absurd rfl hgne
      | cons a p => exact lookup_setPath_none a p fs
    have hct : copytree (setPath fs game none) b game =
        .ok (setPath (setPath fs game none) game (some (Node.dir B))) := by
      unfold copytree
      rw [statAt_of_dir _ b B hb1, hg1]
      rfl
    have hrest : restoreExecute st [] fs game (some b) =
        ({ success := true, message := restoreSuccessMsg,
            backup_path := none },
          setPath (setPath fs game none) game (some (Node.dir B)),
          [setPath fs game none,
            setPath (setPath fs game none) game (some (Node.dir B))]) := by
      unfold restoreExecute restoreBody
      dsimp only
      rw [hexb]
      simp only [Bool.not_true, Bool.false_eq_true, if_false, step, hex,
        if_true]
      rw [hrl]
      dsimp only
      rw [hct]
    rw [hrest]
    exact ⟨rfl, lookup_setPath_some _ _ _⟩
  · intro E hg
    have hex : existsAt fs game = true := by
      unfold existsAt
      rw [statAt_of_dir fs game E hg]
      rfl
    have hrl : st.remove_link fs game = .ok fs :=
      strategy_removeLink_nonlink st hst fs game (isLinkAt_of_dir fs game E hg)
    have hct : copytree fs b game = .error fileExistsMsg := by
      unfold copytree
      rw [statAt_of_dir fs b B hbk, hg]
      rfl
    have hrest : restoreExecute st [] fs game (some b) =
        ({ success := false, message := fileExistsMsg, backup_path := none },
          fs, [fs]) := by
      unfold restoreExecute restoreBody
      dsimp only
      rw [hexb]
      simp only [Bool.not_true, Bool.false_eq_true, if_false, step, hex,
        if_true]
      rw [hrl]
      dsimp only
      rw [hct]
    rw [hrest]
    exact ⟨rfl, hg⟩

/-- C5 counterexample: the backup directory a successful Link creates is
named `backup_<YYYYMMDD_HHMMSS>`, which is not of the form
`Saves-backup-<timestamp>` the claim states (that is the legacy
`symlinking.py` naming). -/
theorem link_backup_name_counterexample :
    (linkExecute symlinkStrategy [] fsW gameW cloudW brootW tsW).1.backup_path
      = some ["home", "bk", "backup_20240102_030405"] ∧
    ∀ s : String, "backup_20240102_030405" ≠ "Saves-backup-" ++ s := by
  constructor
  · rfl
  · intro s h
    have h2 := congrArg String.data h
    simp [String.data_append] at h2

/-- C5 amended: every backup a successful Link creates is a directory
directly under the fixed backup root `<home>/StardewValleyCrossSaves_Backups`
named `backup_<YYYYMMDD_HHMMSS>` (second resolution, underscore-separated),
holding the save contents verbatim; and the backup-creation step does not
mutate the source directory. -/
theorem link_backup_location_and_name (st : Strategy)
    (hst : st = symlinkStrategy ∨ st = junctionStrategy)
    (fs : Node) (home game cloud : Fpath) (t : Ts)
    (E : List (String × Node))
    (hd1 : Disj game cloud = true)
    (hd2 : Disj game (BACKUP_ROOT home) = true)
    (hd3 : Disj cloud (BACKUP_ROOT home) = true)
    (hgame : lookup fs game = some (Node.dir E))
    (hlf : linkFreeEntries E = true)
    (hnd : (E.map Prod.fst).Nodup)
    (hcf : lookup fs cloud = none)
    (hbf : lookup fs (BACKUP_ROOT home) = none) :
    (linkExecute st [] fs game cloud (BACKUP_ROOT home) t).1.success = true ∧
    (linkExecute st [] fs game cloud (BACKUP_ROOT home) t).1.backup_path =
      some (BACKUP_ROOT home ++ ["backup_" ++ fmtTsUnderscore t]) ∧
    lookup (linkExecute st [] fs game cloud (BACKUP_ROOT home) t).2.1
        (BACKUP_ROOT home ++ ["backup_" ++ fmtTsUnderscore t]) =
      some (Node.dir E) ∧
    (∃ fs2 fs3,
      copyContents (setPath fs cloud (some (Node.dir []))) game cloud true =
        (none, fs2) ∧
      backupFolder fs2 game (BACKUP_ROOT home) t =
        .ok (fs3, BACKUP_ROOT home ++ ["backup_" ++ fmtTsUnderscore t]) ∧
      lookup fs2 game = some (Node.dir E) ∧
      lookup fs3 game = some (Node.dir E)) := by
  obtain ⟨fs2, fs3, esC, hen1, hcc, hbk, hrm, hlink, hg3, hbk3, hc3, hcloud3,
    hg2⟩ := link_stages st hst fs game cloud (BACKUP_ROOT home) t E hd1 hd2
    hd3 hgame hlf hnd hcf hbf
  have hdbp : Disj game (BACKUP_ROOT home ++ [backupDirName t]) = true :=
    disj_append_right game (BACKUP_ROOT home) [backupDirName t] hd2
  have hrun : linkExecute st [] fs game cloud (BACKUP_ROOT home) t =
      ({ success := true, message := linkSuccessMsg,
          backup_path := some (BACKUP_ROOT home ++ [backupDirName t]) },
        setPath (setPath fs3 game none) game (some (Node.link cloud)),
        [setPath fs cloud (some (Node.dir [])), fs2, fs3,
          setPath fs3 game none,
          setPath (setPath fs3 game none) game (some (Node.link cloud))]) := by
    unfold linkExecute linkBody
    rw [strategy_isLink_dir st hst fs game E hgame]
    simp only [Bool.false_eq_true, if_false, step, stepCopy]
    rw [hen1]
    dsimp only
    rw [hcc]
    dsimp only
    rw [hbk]
    dsimp only
    rw [hrm]
    dsimp only
    rw [hlink]
  rw [hrun]
  refine ⟨rfl, rfl, ?_, fs2, fs3, hcc, hbk, hg2, hg3⟩
  dsimp only
  rw [show "backup_" ++ fmtTsUnderscore t = backupDirName t from rfl,
    lookup_setPath_disjoint _ _ _ _ hdbp,
    lookup_setPath_disjoint _ _ _ _ hdbp]
  exact hbk3

/-- C8 counterexample: `FileOperations.remove_path` raises
`FileNotFoundError` on an absent path (the claim says no-op), and raises
the refusal of `shutil.rmtree` on a link resolving to a directory (the claim
says the link entry is removed). -/
theorem remove_path_counterexample :
    removePath (Node.dir []) ["x"] = .error fileNotFoundMsg ∧
    removePath fsLinkDirW ["s"] = .error rmtreeLinkMsg ∧
    lookup fsLinkDirW ["s"] = some (Node.link ["c"]) :=
  ⟨rfl, rfl, rfl⟩

/-- C8 amended: `remove_path` removes a real directory recursively and a
link that does not resolve to a directory entry-only; but an absent path
raises `FileNotFoundError` (not a no-op), and a link resolving to a
directory raises instead of being removed.  Whatever it removes, it never
touches any disjoint location (in particular never the target data of a link). -/
theorem remove_path_spec (fs : Node) (p : Fpath) :
    (removePath fs p =
      match lookup fs p with
      | none => .error fileNotFoundMsg
      | some (Node.file _) => .ok (setPath fs p none)
      | some (Node.dir _) => .ok (setPath fs p none)
      | some (Node.link _) =>
        if isDirAt fs p then .error rmtreeLinkMsg
        else .ok (setPath fs p none)) ∧
    (∀ fs' q, removePath fs p = .ok fs' → Disj p q = true →
      lookup fs' q = lookup fs q) := by
  constructor
  · cases hl : lookup fs p with
    | none =>
      have hd : isDirAt fs p = false := by
        unfold isDirAt statAt
        rw [hl]
        rfl
      unfold removePath
      rw [hd]
      simp only [Bool.false_eq_true, if_false]
      unfold unlink
      rw [hl]
    | some n =>
      cases n with
      | file d =>
        have hd : isDirAt fs p = false := by
          unfold isDirAt statAt
          rw [hl]
          rfl
        unfold removePath
        rw [hd]
        simp only [Bool.false_eq_true, if_false]
        unfold unlink
        rw [hl]
      | dir es =>
        have hd : isDirAt fs p = true := by
          unfold isDirAt
          rw [statAt_of_dir fs p es hl]
        unfold removePath
        rw [hd]
        simp only [if_true]
        unfold rmtree
        rw [hl]
      | link tgt =>
        by_cases hd : isDirAt fs p
        · unfold removePath
          rw [if_pos hd, if_pos hd]
          unfold rmtree
          rw [hl]
        · unfold removePath
          rw [if_neg hd, if_neg hd]
          unfold unlink
          rw [hl]
  · intro fs' q h hq
    rw [removePath_ok fs fs' p h]
    exact lookup_setPath_disjoint _ _ _ _ hq

/-- C9 counterexample: `remove_link` (both variants) does *not* remove a
link whose target no longer exists — `path.exists()` follows the broken
link and returns false, so the guard skips the unlink and the dangling
entry stays. -/
theorem remove_link_broken_counterexample :
    symRemoveLink fsBrokenW ["save"] = .ok fsBrokenW ∧
    juncRemoveLink fsBrokenW ["save"] = .ok fsBrokenW ∧
    lookup fsBrokenW ["save"] = some (Node.link ["gone"]) :=
  ⟨rfl, rfl, rfl⟩

/-- C9 amended: `remove_link` (symlink and junction variants alike) unlinks
only the link entry — never the data it points to — for every link entry
whose target exists; a link whose target no longer exists is left in place
(a no-op, contrary to the claim), and a path that is absent or not
classified as a link is a no-op. -/
theorem remove_link_spec (st : Strategy)
    (hst : st = symlinkStrategy ∨ st = junctionStrategy)
    (fs : Node) (p : Fpath) :
    (∀ tgt, lookup fs p = some (Node.link tgt) → existsAt fs p = true →
      st.remove_link fs p = .ok (setPath fs p none) ∧
      lookup (setPath fs p none) p = none ∧
      (∀ q, Disj p q = true → lookup (setPath fs p none) q = lookup fs q)) ∧
    (∀ tgt, lookup fs p = some (Node.link tgt) → existsAt fs p = false →
      st.remove_link fs p = .ok fs) ∧
    (isLinkAt fs p = false → st.remove_link fs p = .ok fs) := by
  refine ⟨?_, ?_, ?_⟩
  · intro tgt hp hex
    have hpne : p ≠ [] := by
      intro hc
      subst hc
      simp only [lookup] at hp
      cases hp
      have : existsAt (Node.link tgt) [] = false := by
        unfold existsAt statAt
        show (resolveNode (Node.link tgt) (Node.link tgt)).isSome = false
        simp only [resolveNode]
        cases tgt with
        | nil => rfl
        | cons a q => rfl
      rw [this] at hex
      cases hex
    refine ⟨strategy_removeLink_link st hst fs p tgt hp hex, ?_, ?_⟩
    · cases p with
      | nil => exact absurd rfl hpne
      | cons a q => exact lookup_setPath_none a q fs
    · intro q hq
      exact lookup_setPath_disjoint _ _ _ _ hq
  · intro tgt hp hex
    have hul : (existsAt fs p && isLinkAt fs p) = false := by
      rw [hex]
      rfl
    rcases hst with rfl | rfl
    · show symRemoveLink fs p = _
      unfold symRemoveLink symIsLink
      rw [hex]
      simp
    · show juncRemoveLink fs p = _
      unfold juncRemoveLink juncIsLink
      rw [hex]
      simp
  · exact strategy_removeLink_nonlink st hst fs p

/-- C2: Link followed by Restore (with the backup path the Link result
returned) reproduces the save directory as a real directory — not a link —
whose contents are byte-identical (node-identical in the model) to those it
held before Link ran. -/
theorem link_then_restore_round_trip (st : Strategy)
    (hst : st = symlinkStrategy ∨ st = junctionStrategy)
    (fs : Node) (game cloud broot : Fpath) (t : Ts) (E : List (String × Node))
    (hd1 : Disj game cloud = true) (hd2 : Disj game broot = true)
    (hd3 : Disj cloud broot = true)
    (hgame : lookup fs game = some (Node.dir E))
    (hlf : linkFreeEntries E = true)
    (hnd : (E.map Prod.fst).Nodup)
    (hcf : lookup fs cloud = none)
    (hbf : lookup fs broot = none) :
    (linkExecute st [] fs game cloud broot t).1.success = true ∧
    (linkExecute st [] fs game cloud broot t).1.backup_path =
      some (broot ++ [backupDirName t]) ∧
    (restoreExecute st [] (linkExecute st [] fs game cloud broot t).2.1 game
        (linkExecute st [] fs game cloud broot t).1.backup_path).1.success =
      true ∧
    lookup (restoreExecute st []
        (linkExecute st [] fs game cloud broot t).2.1 game
        (linkExecute st [] fs game cloud broot t).1.backup_path).2.1 game =
      some (Node.dir E) ∧
    isLinkAt (restoreExecute st []
        (linkExecute st [] fs game cloud broot t).2.1 game
        (linkExecute st [] fs game cloud broot t).1.backup_path).2.1 game =
      false := by
  obtain ⟨hgne, -⟩ := disj_ne_nil game cloud hd1
  obtain ⟨fs2, fs3, esC, hen1, hcc, hbk, hrm, hlink, hg3, hbk3, hc3, hcloud3,
    hg2⟩ := link_stages st hst fs game cloud broot t E hd1 hd2 hd3 hgame hlf
    hnd hcf hbf
  set fs4 := setPath fs3 game none with hfs4
  set fs5 := setPath fs4 game (some (Node.link cloud)) with hfs5
  have hdbp : Disj game (broot ++ [backupDirName t]) = true :=
    disj_append_right game broot [backupDirName t] hd2
  have hrun : linkExecute st [] fs game cloud broot t =
      ({ success := true, message := linkSuccessMsg,
          backup_path := some (broot ++ [backupDirName t]) },
        fs5, [setPath fs cloud (some (Node.dir [])), fs2, fs3, fs4, fs5]) := by
    unfold linkExecute linkBody
    rw [strategy_isLink_dir st hst fs game E hgame]
    simp only [Bool.false_eq_true, if_false, step, stepCopy]
    rw [hen1]
    dsimp only
    rw [hcc]
    dsimp only
    rw [hbk]
    dsimp only
    rw [hrm]
    dsimp only
    rw [hlink]
  have hbp5 : lookup fs5 (broot ++ [backupDirName t]) = some (Node.dir E) := by
    rw [hfs5, lookup_setPath_disjoint _ _ _ _ hdbp, hfs4,
      lookup_setPath_disjoint _ _ _ _ hdbp]
    exact hbk3
  have hexbp : existsAt fs5 (broot ++ [backupDirName t]) = true := by
    unfold existsAt
    rw [statAt_of_dir fs5 _ E hbp5]
    rfl
  have hg5 : lookup fs5 game = some (Node.link cloud) :=
    lookup_setPath_some _ _ _
  have hc5 : lookup fs5 cloud = some (Node.dir esC) := by
    rw [hfs5, lookup_setPath_disjoint _ _ _ _ hd1, hfs4,
      lookup_setPath_disjoint _ _ _ _ hd1]
    exact hc3
  have hex5 : existsAt fs5 game = true := by
    unfold existsAt
    rw [statAt_link_dir fs5 game cloud esC hg5 hc5]
    rfl
  have hrl : st.remove_link fs5 game = .ok (setPath fs5 game none) :=
    strategy_removeLink_link st hst fs5 game cloud hg5 hex5
  set fs6 := setPath fs5 game none with hfs6
  have hbp6 : lookup fs6 (broot ++ [backupDirName t]) = some (Node.dir E) := by
    rw [hfs6, lookup_setPath_disjoint _ _ _ _ hdbp]
    exact hbp5
  have hg6 : lookup fs6 game = none := by
    cases game with
    | nil => exact absurd rfl hgne
    | cons a p => exact lookup_setPath_none a p fs5
  have hct : copytree fs6 (broot ++ [backupDirName t]) game =
      .ok (setPath fs6 game (some (Node.dir E))) := by
    unfold copytree
    rw [statAt_of_dir fs6 _ E hbp6, hg6]
    rfl
  have hrest : restoreExecute st [] fs5 game
      (some (broot ++ [backupDirName t])) =
      ({ success := true, message := restoreSuccessMsg, backup_path := none },
        setPath fs6 game (some (Node.dir E)),
        [fs6, setPath fs6 game (some (Node.dir E))]) := by
    unfold restoreExecute restoreBody
    dsimp only
    rw [hexbp]
    simp only [Bool.not_true, Bool.false_eq_true, if_false, step, hex5,
      if_true]
    rw [hrl]
    dsimp only
    rw [hct]
  rw [hrun]
  dsimp only
  rw [hrest]
  refine ⟨rfl, rfl, rfl, lookup_setPath_some _ _ _, ?_⟩
  unfold isLinkAt
  rw [lookup_setPath_some _ _ _]

/-- C4: invoking Link on a save directory the strategy classifies as a link
returns a failure result whose message references the directory already
being a link, leaves the filesystem untouched, and records no trace of any
write. -/
theorem link_already_linked_no_writes (st : Strategy) (env : Env) (fs : Node)
    (game cloud broot : Fpath) (t : Ts)
    (hlink : st.is_link fs game = true) :
    linkExecute st env fs game cloud broot t =
      ({ success := false, message := alreadyLinkedMsg, backup_path := none },
        fs, []) ∧
    ∃ pre post, alreadyLinkedMsg = pre ++ "already be a link" ++ post := by
  constructor
  · unfold linkExecute linkBody
    rw [hlink]
    simp
  · exact ⟨"The game Saves folder appears to ",
      "/junction. Use \x27Restore Backup\x27 first.", by decide⟩

/-- C6: Migrate copies every entry of the save directory, verbatim, into
the cloud target, leaves the save directory unchanged, and its result never
carries a backup path. -/
theorem migrate_copies_and_preserves_source (env : Env) (fs : Node)
    (game cloud : Fpath) (E : List (String × Node))
    (hd : Disj game cloud = true)
    (hgame : lookup fs game = some (Node.dir E))
    (hlf : linkFreeEntries E = true)
    (hnd : (E.map Prod.fst).Nodup) :
    (migrateExecute env fs game cloud).1.backup_path = none ∧
    ((migrateExecute env fs game cloud).1.success = true →
      (∀ e ∈ E, lookup (migrateExecute env fs game cloud).2.1 (cloud ++ [e.1])
        = some e.2) ∧
      lookup (migrateExecute env fs game cloud).2.1 game =
        some (Node.dir E)) := by
  unfold migrateExecute migrateBody
  cases hs1 : step env (ensureDirectory fs cloud) with
  | mk r1 env1 =>
    cases r1 with
    | error e =>
      dsimp only
      exact ⟨rfl, fun hc => absurd hc (by simp)⟩
    | ok fs1 =>
      dsimp only
      have hact1 : ensureDirectory fs cloud = .ok fs1 :=
        step_ok env _ _ _ _ hs1 rfl
      have hg1 : lookup fs1 game = some (Node.dir E) := by
        rcases ensureDirectory_ok fs fs1 cloud hact1 with rfl | ⟨_, h1⟩
        · exact hgame
        · rw [h1, lookup_setPath_disjoint _ _ _ _ (disj_comm _ _ ▸ hd)]
          exact hgame
      cases hs2 : stepCopy env1 fs1 (copyContents fs1 game cloud true) with
      | mk r2 env2 =>
        obtain ⟨e2, fs2⟩ := r2
        cases e2 with
        | some e =>
          dsimp only
          exact ⟨rfl, fun hc => absurd hc (by simp)⟩
        | none =>
          dsimp only
          have hact2 : copyContents fs1 game cloud true = (none, fs2) :=
            stepCopy_ok env1 fs1 _ _ _ hs2
          have hg2 : lookup fs2 game = some (Node.dir E) := by
            rw [copyContents_preserves fs1 game cloud true none fs2 game hact2
              (disj_comm _ _ ▸ hd)]
            exact hg1
          exact ⟨rfl, fun _ =>
            ⟨copyContents_ok_content fs1 fs2 game cloud E hact2 hg1 hd hlf hnd,
              hg2⟩⟩

/-- C7: each of the three workflows catches every failure its try-block
raises and converts it into a failed `OperationResult` carrying exactly the
error's text (and no backup path); nothing is thrown past `execute`. -/
theorem workflows_catch_all_failures :
    (∀ env fs game cloud e fsE tr,
      migrateBody env fs game cloud = (.error e, fsE, tr) →
      migrateExecute env fs game cloud =
        ({ success := false, message := e, backup_path := none }, fsE, tr)) ∧
    (∀ st env fs game cloud broot t e fsE tr,
      linkBody st env fs game cloud broot t = (.error e, fsE, tr) →
      linkExecute st env fs game cloud broot t =
        ({ success := false, message := e, backup_path := none }, fsE, tr)) ∧
    (∀ st env fs game bp e fsE tr,
      restoreBody st env fs game bp = (.error e, fsE, tr) →
      restoreExecute st env fs game bp =
        ({ success := false, message := e, backup_path := none }, fsE, tr)) := by
  refine ⟨?_, ?_, ?_⟩
  · intro env fs game cloud e fsE tr h
    unfold migrateExecute
    rw [h]
  · intro st env fs game cloud broot t e fsE tr h
    unfold linkExecute
    rw [h]
  · intro st env fs game bp e fsE tr h
    unfold restoreExecute
    rw [h]

/-- C10: a failed Link result never carries the backup path — its
`backup_path` is `none` even when the failure struck after the backup was
created, in which case the backup directory demonstrably exists in the
final filesystem state. -/
theorem link_failure_result_hides_backup (st : Strategy)
    (hst : st = symlinkStrategy ∨ st = junctionStrategy)
    (fs : Node) (game cloud broot : Fpath) (t : Ts) (E : List (String × Node))
    (m : String)
    (hd1 : Disj game cloud = true) (hd2 : Disj game broot = true)
    (hd3 : Disj cloud broot = true)
    (hgame : lookup fs game = some (Node.dir E))
    (hlf : linkFreeEntries E = true)
    (hnd : (E.map Prod.fst).Nodup)
    (hcf : lookup fs cloud = none)
    (hbf : lookup fs broot = none) :
    (∀ env, (linkExecute st env fs game cloud broot t).1.success = false →
      (linkExecute st env fs game cloud broot t).1.backup_path = none) ∧
    (linkExecute st [none, none, none, some m] fs game cloud broot t).1 =
      { success := false, message := m, backup_path := none } ∧
    lookup (linkExecute st [none, none, none, some m]
        fs game cloud broot t).2.1 (broot ++ [backupDirName t]) =
      some (Node.dir E) := by
  obtain ⟨fs2, fs3, esC, hen1, hcc, hbk, hrm, hlink, hg3, hbk3, hc3, hcloud3,
    hg2⟩ := link_stages st hst fs game cloud broot t E hd1 hd2 hd3 hgame hlf
    hnd hcf hbf
  have hrun2 : linkExecute st [none, none, none, some m] fs game cloud broot
      t = ({ success := false, message := m, backup_path := none }, fs3,
        [setPath fs cloud (some (Node.dir [])), fs2, fs3]) := by
    unfold linkExecute linkBody
    rw [strategy_isLink_dir st hst fs game E hgame]
    simp only [Bool.false_eq_true, if_false, step, stepCopy]
    rw [hen1]
    dsimp only
    rw [hcc]
    dsimp only
    rw [hbk]
  refine ⟨?_, ?_, ?_⟩
  · intro env hfail
    unfold linkExecute at hfail ⊢
    cases hb : linkBody st env fs game cloud broot t with
    | mk r rest =>
      obtain ⟨fsE, trE⟩ := rest
      rw [hb] at hfail
      cases r with
      | error e => rfl
      | ok o =>
        cases o with
        | alreadyLinked => rfl
        | linked bp => simp at hfail
  · rw [hrun2]
  · rw [hrun2]
    exact hbk3

/-- C1: In the Link workflow, the original save directory is removed only
after both the copy of its contents into the cloud target and the
timestamped backup have completed successfully: in every execution (any
environment-failure pattern, either platform strategy), every filesystem
state produced by the workflow — intermediate or final — either still holds
the original save directory intact, or holds both the full cloud copy and
the full backup of its contents. -/
theorem link_removes_only_after_two_copies
    (st : Strategy) (hst : st = symlinkStrategy ∨ st = junctionStrategy)
    (env : Env) (fs : Node) (game cloud broot : Fpath) (t : Ts)
    (E : List (String × Node))
    (hd1 : Disj game cloud = true) (hd2 : Disj game broot = true)
    (hd3 : Disj cloud broot = true)
    (hgame : lookup fs game = some (Node.dir E))
    (hlf : linkFreeEntries E = true)
    (hnd : (E.map Prod.fst).Nodup) :
    ∀ s, (s ∈ (linkExecute st env fs game cloud broot t).2.2 ∨
        s = (linkExecute st env fs game cloud broot t).2.1) →
      lookup s game = some (Node.dir E) ∨
        ((∀ e ∈ E, lookup s (cloud ++ [e.1]) = some e.2) ∧
          lookup s (broot ++ [backupDirName t]) = some (Node.dir E)) := by
  have hbody : (linkExecute st env fs game cloud broot t).2 =
      (linkBody st env fs game cloud broot t).2 := by
    unfold linkExecute
    cases hb : linkBody st env fs game cloud broot t with
    | mk r rest =>
      cases r with
      | ok o => cases o <;> rfl
      | error e => rfl
  rw [hbody]
  unfold linkBody
  rw [strategy_isLink_dir st hst fs game E hgame]
  simp only [Bool.false_eq_true, if_false]
  cases hs1 : step env (ensureDirectory fs cloud) with
  | mk r1 env1 =>
    cases r1 with
    | error e =>
      dsimp only
      intro s hsm
      rcases hsm with hsm | rfl
      · simp at hsm
      · exact Or.inl hgame
    | ok fs1 =>
      dsimp only
      have hact1 : ensureDirectory fs cloud = .ok fs1 :=
        step_ok env _ _ _ _ hs1 rfl
      have hg1 : lookup fs1 game = some (Node.dir E) := by
        rcases ensureDirectory_ok fs fs1 cloud hact1 with rfl | ⟨_, h1⟩
        · exact hgame
        · rw [h1, lookup_setPath_disjoint _ _ _ _ (disj_comm _ _ ▸ hd1)]
          exact hgame
      cases hs2 : stepCopy env1 fs1 (copyContents fs1 game cloud true) with
      | mk r2 env2 =>
        obtain ⟨e2, fs2⟩ := r2
        cases e2 with
        | some e =>
          dsimp only
          have hg2 : lookup fs2 game = some (Node.dir E) := by
            rcases stepCopy_out env1 fs1 _ _ _ hs2 with heq | heq
            · have h2 : copyContents fs1 game cloud true = (some e, fs2) :=
                heq.symm
              rw [copyContents_preserves fs1 game cloud true _ fs2 game h2
                (disj_comm _ _ ▸ hd1)]
              exact hg1
            · simp only at heq
              rw [heq]
              exact hg1
          intro s hsm
          rcases hsm with hsm | rfl
          · simp only [List.mem_cons, List.mem_singleton,
              List.not_mem_nil, or_false] at hsm
            rcases hsm with rfl | rfl
            · exact Or.inl hg1
            · exact Or.inl hg2
          · exact Or.inl hg2
        | none =>
          dsimp only
          have hact2 : copyContents fs1 game cloud true = (none, fs2) :=
            stepCopy_ok env1 fs1 _ _ _ hs2
          have hg2 : lookup fs2 game = some (Node.dir E) := by
            rw [copyContents_preserves fs1 game cloud true none fs2 game hact2
              (disj_comm _ _ ▸ hd1)]
            exact hg1
          have hcloud2 : ∀ e ∈ E, lookup fs2 (cloud ++ [e.1]) = some e.2 :=
            copyContents_ok_content fs1 fs2 game cloud E hact2 hg1 hd1 hlf hnd
          cases hs3 : step env2 (backupFolder fs2 game broot t) with
          | mk r3 env3 =>
            cases r3 with
            | error e =>
              dsimp only
              intro s hsm
              rcases hsm with hsm | rfl
              · simp only [List.mem_cons, List.mem_singleton,
                  List.not_mem_nil, or_false] at hsm
                rcases hsm with rfl | rfl
                · exact Or.inl hg1
                · exact Or.inl hg2
              · exact Or.inl hg2
            | ok pr =>
              obtain ⟨fs3, bp⟩ := pr
              dsimp only
              have hact3 : backupFolder fs2 game broot t = .ok (fs3, bp) :=
                step_ok env2 _ _ _ _ hs3 rfl
              obtain ⟨hbp, hbk3, hpres3⟩ := backupFolder_ok_dir fs2 fs3 game
                broot bp t E hg2 (disj_comm _ _ ▸ hd2) hact3
              subst hbp
              have hg3 : lookup fs3 game = some (Node.dir E) := by
                rw [hpres3 game (disj_comm _ _ ▸ hd2)]
                exact hg2
              have hcloud3 : ∀ e ∈ E, lookup fs3 (cloud ++ [e.1]) = some e.2 := by
                intro e he
                rw [hpres3 (cloud ++ [e.1])
                  (disj_append_right broot cloud [e.1] (disj_comm _ _ ▸ hd3))]
                exact hcloud2 e he
              cases hs4 : step env3 (removePath fs3 game) with
              | mk r4 env4 =>
                cases r4 with
                | error e =>
                  dsimp only
                  intro s hsm
                  rcases hsm with hsm | rfl
                  · simp only [List.mem_cons, List.mem_singleton,
                      List.not_mem_nil, or_false] at hsm
                    rcases hsm with rfl | rfl | rfl
                    · exact Or.inl hg1
                    · exact Or.inl hg2
                    · exact Or.inl hg3
                  · exact Or.inl hg3
                | ok fs4 =>
                  dsimp only
                  have hact4 : removePath fs3 game = .ok fs4 :=
                    step_ok env3 _ _ _ _ hs4 rfl
                  have h4 : fs4 = setPath fs3 game none :=
                    removePath_ok fs3 fs4 game hact4
                  have hcloud4 : ∀ e ∈ E,
                      lookup fs4 (cloud ++ [e.1]) = some e.2 := by
                    intro e he
                    rw [h4, lookup_setPath_disjoint _ _ _ _
                      (disj_append_right game cloud [e.1] hd1)]
                    exact hcloud3 e he
                  have hbk4 : lookup fs4 (broot ++ [backupDirName t]) =
                      some (Node.dir E) := by
                    rw [h4, lookup_setPath_disjoint _ _ _ _
                      (disj_append_right game broot [backupDirName t] hd2)]
                    exact hbk3
                  cases hs5 : step env4 (st.create_link fs4 game cloud) with
                  | mk r5 env5 =>
                    cases r5 with
                    | error e =>
                      dsimp only
                      intro s hsm
                      rcases hsm with hsm | rfl
                      · simp only [List.mem_cons, List.mem_singleton,
                          List.not_mem_nil, or_false] at hsm
                        rcases hsm with rfl | rfl | rfl | rfl
                        · exact Or.inl hg1
                        · exact Or.inl hg2
                        · exact Or.inl hg3
                        · exact Or.inr ⟨hcloud4, hbk4⟩
                      · exact Or.inr ⟨hcloud4, hbk4⟩
                    | ok fs5 =>
                      dsimp only
                      have hact5 : st.create_link fs4 game cloud = .ok fs5 :=
                        step_ok env4 _ _ _ _ hs5 rfl
                      obtain ⟨-, h5⟩ := strategy_createLink_ok st hst fs4 fs5
                        game cloud hact5
                      have hcloud5 : ∀ e ∈ E,
                          lookup fs5 (cloud ++ [e.1]) = some e.2 := by
                        intro e he
                        rw [h5, lookup_setPath_disjoint _ _ _ _
                          (disj_append_right game cloud [e.1] hd1)]
                        exact hcloud4 e he
                      have hbk5 : lookup fs5 (broot ++ [backupDirName t]) =
                          some (Node.dir E) := by
                        rw [h5, lookup_setPath_disjoint _ _ _ _
                          (disj_append_right game broot [backupDirName t] hd2)]
                        exact hbk4
                      intro s hsm
                      rcases hsm with hsm | rfl
                      · simp only [List.mem_cons, List.mem_singleton,
                          List.not_mem_nil, or_false] at hsm
                        rcases hsm with rfl | rfl | rfl | rfl | rfl
                        · exact Or.inl hg1
                        · exact Or.inl hg2
                        · exact Or.inl hg3
                        · exact Or.inr ⟨hcloud4, hbk4⟩
                        · exact Or.inr ⟨hcloud5, hbk5⟩
                      · exact Or.inr ⟨hcloud5, hbk5⟩

/-! ### Witnesses: the theorems instantiated at concrete inputs -/

/-- C1 witness: the invariant evaluated at the fixture's final state. -/
theorem link_removes_only_after_two_copies_witness :
    lookup ((linkExecute symlinkStrategy [] fsW gameW cloudW brootW
        tsW).2.1) gameW = some (Node.dir Ew) ∨
      ((∀ e ∈ Ew, lookup ((linkExecute symlinkStrategy [] fsW gameW cloudW
          brootW tsW).2.1) (cloudW ++ [e.1]) = some e.2) ∧
        lookup ((linkExecute symlinkStrategy [] fsW gameW cloudW brootW
          tsW).2.1) (brootW ++ [backupDirName tsW]) = some (Node.dir Ew)) :=
  link_removes_only_after_two_copies symlinkStrategy (Or.inl rfl) [] fsW
    gameW cloudW brootW tsW Ew (by decide) (by decide) (by decide) rfl rfl
    (by decide) _ (Or.inr rfl)

/-- C2 witness: the round trip on the fixture. -/
theorem link_then_restore_round_trip_witness :
    (linkExecute symlinkStrategy [] fsW gameW cloudW brootW tsW).1.success =
      true ∧
    (linkExecute symlinkStrategy [] fsW gameW cloudW brootW
        tsW).1.backup_path = some (brootW ++ [backupDirName tsW]) ∧
    (restoreExecute symlinkStrategy []
        (linkExecute symlinkStrategy [] fsW gameW cloudW brootW tsW).2.1
        gameW
        (linkExecute symlinkStrategy [] fsW gameW cloudW brootW
          tsW).1.backup_path).1.success = true ∧
    lookup (restoreExecute symlinkStrategy []
        (linkExecute symlinkStrategy [] fsW gameW cloudW brootW tsW).2.1
        gameW
        (linkExecute symlinkStrategy [] fsW gameW cloudW brootW
          tsW).1.backup_path).2.1 gameW = some (Node.dir Ew) ∧
    isLinkAt (restoreExecute symlinkStrategy []
        (linkExecute symlinkStrategy [] fsW gameW cloudW brootW tsW).2.1
        gameW
        (linkExecute symlinkStrategy [] fsW gameW cloudW brootW
          tsW).1.backup_path).2.1 gameW = false :=
  link_then_restore_round_trip symlinkStrategy (Or.inl rfl) fsW gameW cloudW
    brootW tsW Ew (by decide) (by decide) (by decide) rfl rfl (by decide)
    rfl rfl

/-- C3 witness: a link occupant is removed and restored over; a directory
occupant makes the command fail and stay put. -/
theorem restore_removes_link_not_directory_witness :
    ((restoreExecute symlinkStrategy [] fsLinkedW ["save"]
        (some ["cloud", "Saves"])).1.success = true ∧
      lookup (restoreExecute symlinkStrategy [] fsLinkedW ["save"]
        (some ["cloud", "Saves"])).2.1 ["save"] = some (Node.dir Ew)) ∧
    ((restoreExecute symlinkStrategy [] fsDirOccW gameW
        (some bpW)).1.success = false ∧
      lookup (restoreExecute symlinkStrategy [] fsDirOccW gameW
        (some bpW)).2.1 gameW = some (Node.dir Ew)) :=
  ⟨(restore_removes_link_not_directory symlinkStrategy (Or.inl rfl) fsLinkedW
      ["save"] ["cloud", "Saves"] ["cloud", "Saves"] Ew Ew (by decide)
      rfl).1 rfl rfl,
    (restore_removes_link_not_directory symlinkStrategy (Or.inl rfl)
      fsDirOccW gameW bpW ["x"] Ew Ew (by decide) rfl).2 Ew rfl⟩

/-- C4 witness: Link invoked on an already-linked fixture. -/
theorem link_already_linked_no_writes_witness :
    linkExecute symlinkStrategy [] fsLinkedW ["save"] ["cloud", "Saves"]
        ["home", "bk"] tsW =
      ({ success := false, message := alreadyLinkedMsg, backup_path := none },
        fsLinkedW, []) ∧
    ∃ pre post, alreadyLinkedMsg = pre ++ "already be a link" ++ post :=
  link_already_linked_no_writes symlinkStrategy [] fsLinkedW ["save"]
    ["cloud", "Saves"] ["home", "bk"] tsW rfl

/-- C5 witness: the amended naming claim at the fixture, with the backup
root fixed to `<home>/StardewValleyCrossSaves_Backups`. -/
theorem link_backup_location_and_name_witness :
    (linkExecute symlinkStrategy [] fsW gameW cloudW
        (BACKUP_ROOT ["home"]) tsW).1.success = true ∧
    (linkExecute symlinkStrategy [] fsW gameW cloudW
        (BACKUP_ROOT ["home"]) tsW).1.backup_path =
      some (BACKUP_ROOT ["home"] ++ ["backup_" ++ fmtTsUnderscore tsW]) ∧
    lookup (linkExecute symlinkStrategy [] fsW gameW cloudW
        (BACKUP_ROOT ["home"]) tsW).2.1
        (BACKUP_ROOT ["home"] ++ ["backup_" ++ fmtTsUnderscore tsW]) =
      some (Node.dir Ew) ∧
    (∃ fs2 fs3,
      copyContents (setPath fsW cloudW (some (Node.dir []))) gameW cloudW
        true = (none, fs2) ∧
      backupFolder fs2 gameW (BACKUP_ROOT ["home"]) tsW =
        .ok (fs3, BACKUP_ROOT ["home"] ++
          ["backup_" ++ fmtTsUnderscore tsW]) ∧
      lookup fs2 gameW = some (Node.dir Ew) ∧
      lookup fs3 gameW = some (Node.dir Ew)) :=
  link_backup_location_and_name symlinkStrategy (Or.inl rfl) fsW ["home"]
    gameW cloudW tsW Ew (by decide) (by decide) (by decide) rfl rfl
    (by decide) rfl rfl

/-- C6 witness: Migrate on the fixture, with the success branch taken. -/
theorem migrate_copies_and_preserves_source_witness :
    (migrateExecute [] fsW gameW cloudW).1.backup_path = none ∧
    ((∀ e ∈ Ew, lookup (migrateExecute [] fsW gameW cloudW).2.1
        (cloudW ++ [e.1]) = some e.2) ∧
      lookup (migrateExecute [] fsW gameW cloudW).2.1 gameW =
        some (Node.dir Ew)) :=
  ⟨(migrate_copies_and_preserves_source [] fsW gameW cloudW Ew (by decide)
      rfl rfl (by decide)).1,
    (migrate_copies_and_preserves_source [] fsW gameW cloudW Ew (by decide)
      rfl rfl (by decide)).2 rfl⟩

/-- C7 witness: an injected failure in each workflow surfaces as a failed
result carrying the exact message. -/
theorem workflows_catch_all_failures_witness :
    migrateExecute [some "boom"] fsW gameW cloudW =
      ({ success := false, message := "boom", backup_path := none },
        fsW, []) ∧
    linkExecute symlinkStrategy [some "boom"] fsW gameW cloudW brootW tsW =
      ({ success := false, message := "boom", backup_path := none },
        fsW, []) ∧
    restoreExecute symlinkStrategy [some "boom"] fsDirOccW gameW (some bpW) =
      ({ success := false, message := "boom", backup_path := none },
        fsDirOccW, []) :=
  ⟨workflows_catch_all_failures.1 [some "boom"] fsW gameW cloudW "boom" fsW
      [] rfl,
    workflows_catch_all_failures.2.1 symlinkStrategy [some "boom"] fsW gameW
      cloudW brootW tsW "boom" fsW [] rfl,
    workflows_catch_all_failures.2.2 symlinkStrategy [some "boom"] fsDirOccW
      gameW (some bpW) "boom" fsDirOccW [] rfl⟩

/-- C8 witness: the characterization evaluated on the fixture's save
directory, and the preservation part at a concrete disjoint path. -/
theorem remove_path_spec_witness :
    removePath fsW gameW = .ok (setPath fsW gameW none) ∧
    lookup (setPath fsW gameW none) ["home"] = lookup fsW ["home"] :=
  ⟨(remove_path_spec fsW gameW).1,
    (remove_path_spec fsW gameW).2 (setPath fsW gameW none) ["home"]
      (remove_path_spec fsW gameW).1 (by decide)⟩

/-- C9 witness: a live link is unlinked entry-only, a broken link and a
non-link are left alone. -/
theorem remove_link_spec_witness :
    (symRemoveLink fsLinkedW ["save"] =
        .ok (setPath fsLinkedW ["save"] none) ∧
      lookup (setPath fsLinkedW ["save"] none) ["cloud"] =
        lookup fsLinkedW ["cloud"]) ∧
    symRemoveLink fsBrokenW ["save"] = .ok fsBrokenW ∧
    symRemoveLink fsW ["home"] = .ok fsW :=
  ⟨⟨((remove_link_spec symlinkStrategy (Or.inl rfl) fsLinkedW ["save"]).1
        ["cloud", "Saves"] rfl rfl).1,
      ((remove_link_spec symlinkStrategy (Or.inl rfl) fsLinkedW ["save"]).1
        ["cloud", "Saves"] rfl rfl).2.2 ["cloud"] (by decide)⟩,
    (remove_link_spec symlinkStrategy (Or.inl rfl) fsBrokenW ["save"]).2.1
      ["gone"] rfl rfl,
    (remove_link_spec symlinkStrategy (Or.inl rfl) fsW ["home"]).2.2 rfl⟩

/-- C10 witness: a removal-stage failure on the fixture yields a failed
result with no backup path while the backup sits in the final state. -/
theorem link_failure_result_hides_backup_witness :
    (linkExecute symlinkStrategy [none, none, none, some "PermissionError"]
        fsW gameW cloudW brootW tsW).1 =
      { success := false, message := "PermissionError",
        backup_path := none } ∧
    lookup (linkExecute symlinkStrategy
        [none, none, none, some "PermissionError"] fsW gameW cloudW brootW
        tsW).2.1 (brootW ++ [backupDirName tsW]) = some (Node.dir Ew) :=
  ⟨(link_failure_result_hides_backup symlinkStrategy (Or.inl rfl) fsW gameW
      cloudW brootW tsW Ew "PermissionError" (by decide) (by decide)
      (by decide) rfl rfl (by decide) rfl rfl).2.1,
    (link_failure_result_hides_backup symlinkStrategy (Or.inl rfl) fsW gameW
      cloudW brootW tsW Ew "PermissionError" (by decide) (by decide)
      (by decide) rfl rfl (by decide) rfl rfl).2.2⟩

end CrossSave
